import Mathlib

/-!
Verification development for the srx_hook PLT/GOT interposition engine.

The definitions below are a shallow embedding of the Rust sources:
machine words (`usize`, `u32`, `u64`) are modelled as `Nat` with explicit
`% 2 ^ w` where wrap-around matters, raw-pointer heaps are modelled as
association lists keyed by the pointer value, `BTreeMap`/`BTreeSet` are
modelled as association lists / membership lists, and fallible foreign
calls (`mprotect`, signal-guarded reads, trampoline allocation) are
modelled through an explicit oracle environment.
-/

namespace SrxHook

/-- Error codes from `src/errno.rs` (the constructors used by the modelled
paths; discriminants kept for the audit-record status codes). -/
inductive Errno where
  | Ok
  | Uninit
  | InvalidArg
  | NoSym
  | GetProt
  | SetProt
  | SetGot
  | NewTrampo
  | GotVerify
  | ReadElf
  | OrigAddr
  | Dup
  | NotFound
  | Max
  | Invalid
  | Format
  deriving DecidableEq, Repr

/-- `Errno::as_i32` from `src/errno.rs` (restricted to the modelled codes). -/
def Errno.as_i32 : Errno → Int
  | .Ok => 0
  | .Uninit => 1
  | .InvalidArg => 11
  | .NoSym => 13
  | .GetProt => 14
  | .SetProt => 15
  | .SetGot => 16
  | .NewTrampo => 17
  | .GotVerify => 19
  | .ReadElf => 21
  | .OrigAddr => 23
  | .Dup => 29
  | .NotFound => 30
  | .Max => 255
  | .Invalid => 1002
  | .Format => 1007

/-- `Errno::is_ok`. -/
def Errno.is_ok (e : Errno) : Bool := e = .Ok

/-! ### Association-list maps (model of `BTreeMap` / raw-pointer heaps) -/

/-- Lookup in an association list (first binding wins; bindings are kept
key-unique by `insertA`/`eraseA`). -/
def lookupA {κ α : Type} [DecidableEq κ] : List (κ × α) → κ → Option α
  | [], _ => none
  | p :: rest, key => if p.1 = key then some p.2 else lookupA rest key

/-- Insert or overwrite a binding. -/
def insertA {κ α : Type} [DecidableEq κ] : List (κ × α) → κ → α → List (κ × α)
  | [], key, v => [(key, v)]
  | p :: rest, key, v =>
    if p.1 = key then (key, v) :: rest else p :: insertA rest key v

/-- Remove a binding. -/
def eraseA {κ α : Type} [DecidableEq κ] : List (κ × α) → κ → List (κ × α)
  | [], _ => []
  | p :: rest, key => if p.1 = key then rest else p :: eraseA rest key

/-! ### Dispatch hub (`src/runtime/hub.rs`) -/

/-- Proxy chain node (`ProxyNode`); the `next` pointer of the source's
singly-linked list is the list order here (head first). -/
structure ProxyNode where
  func : Nat
  ref_count : Nat
  enabled : Bool
  deriving DecidableEq, Repr

/-- Hub record (`Hub`): `head` is the proxy chain, `lock` is a concurrency
artefact with no sequential content. -/
structure Hub where
  orig_addr : Nat
  trampo : Nat
  nodes : List ProxyNode
  deriving DecidableEq, Repr

/-- Retired-hub record (`RetiredHub`). -/
structure RetiredHub where
  hub_ptr : Nat
  ts : Nat
  deriving DecidableEq, Repr

/-- `HUB_DESTROY_DELAY_SEC` from `src/runtime/hub.rs`. -/
def HUB_DESTROY_DELAY_SEC : Nat := 10

/-- The chain-walk of `add_proxy`: find the first node with this func, bump
its `ref_count` (saturating add, modelled on `Nat`) and re-enable it;
`none` when no node matches. -/
def bumpProxy : List ProxyNode → Nat → Option (List ProxyNode)
  | [], _ => none
  | n :: rest, f =>
    if n.func = f then
      some ({ n with ref_count := n.ref_count + 1, enabled := true } :: rest)
    else (bumpProxy rest f).map (n :: ·)

/-- `add_proxy` (hub-value level; the null-pointer guard lives in the
heap-level wrapper `hubAddProxy`): an existing node is bumped and
re-enabled, otherwise a fresh `{func, 1, enabled}` node becomes the new
head. -/
def add_proxy (hub : Hub) (proxy_func : Nat) : Errno × Hub :=
  if proxy_func = 0 then (.InvalidArg, hub)
  else
    match bumpProxy hub.nodes proxy_func with
    | some nodes => (.Ok, { hub with nodes := nodes })
    | none => (.Ok, { hub with nodes := ⟨proxy_func, 1, true⟩ :: hub.nodes })

/-- The chain-walk of `del_proxy`: find the first node with this func that
is enabled; `ref_count > 1` decrements it, otherwise the node is zeroed
and disabled. `none` when nothing matched (`deleted = false`). -/
def disableProxy : List ProxyNode → Nat → Option (List ProxyNode)
  | [], _ => none
  | n :: rest, f =>
    if n.func = f ∧ n.enabled then
      some ((if 1 < n.ref_count then { n with ref_count := n.ref_count - 1 }
             else { n with ref_count := 0, enabled := false }) :: rest)
    else (disableProxy rest f).map (n :: ·)

/-- The second scan of `del_proxy`: is any node still enabled? -/
def anyEnabled (nodes : List ProxyNode) : Bool := nodes.any (·.enabled)

/-- `del_proxy` (hub-value level): returns `((status, have_enabled_proxy), hub)`. -/
def del_proxy (hub : Hub) (proxy_func : Nat) : (Errno × Bool) × Hub :=
  if proxy_func = 0 then ((.InvalidArg, false), hub)
  else
    match disableProxy hub.nodes proxy_func with
    | some nodes => ((.Ok, anyEnabled nodes), { hub with nodes := nodes })
    | none => ((.NotFound, anyEnabled hub.nodes), hub)

/-- `first_enabled` (hub-value level): the first enabled node's func, else
`orig_addr`. -/
def first_enabled (hub : Hub) : Nat :=
  match hub.nodes.find? (·.enabled) with
  | some n => n.func
  | none => hub.orig_addr

/-- `Vec::swap_remove` on the retired list. -/
def swapRemove (l : List RetiredHub) (i : Nat) : List RetiredHub :=
  match l.getLast? with
  | none => l
  | some last => (l.set i last).dropLast

/-- The scan loop of `collect_retired`: `expired = force || (active_frames
== 0 && now.saturating_sub(ts) >= HUB_DESTROY_DELAY_SEC)`; expired entries
are `swap_remove`d and queued in `ready`, the rest are kept. Returns
`(remaining list, ready hub_ptrs)`. -/
def collectRetiredLoop (force : Bool) (now active : Nat)
    (retired : List RetiredHub) (idx : Nat) (ready : List Nat) :
    List RetiredHub × List Nat :=
  if h : idx < retired.length then
    let item := retired.get ⟨idx, h⟩
    if force ∨ (active = 0 ∧ HUB_DESTROY_DELAY_SEC ≤ now - item.ts) then
      collectRetiredLoop force now active (swapRemove retired idx) idx
        (ready ++ [item.hub_ptr])
    else
      collectRetiredLoop force now active retired (idx + 1) ready
  else (retired, ready)
termination_by retired.length - idx
decreasing_by
  · have hne : retired ≠ [] := by
      intro he
      rw [he] at h
      simp at h
    have hlen : (swapRemove retired idx).length = retired.length - 1 := by
      unfold swapRemove
      cases hml : retired.getLast? with
      | none => exact absurd (List.getLast?_eq_none.mp hml) hne
      | some last => simp [List.length_dropLast, List.length_set]
    rw [hlen]
    omega
  · omega

/-- The expiry condition of `collect_retired` for one retired entry. -/
abbrev hubExpired (force : Bool) (now active : Nat) (e : RetiredHub) : Prop :=
  force = true ∨ (active = 0 ∧ HUB_DESTROY_DELAY_SEC ≤ now - e.ts)

/-! ### Thread-local hub frame stack (`src/runtime/thread_state.rs`,
`src/runtime/hub/stack.rs`) -/

/-- `HUB_STACK_CAP` from `src/runtime/thread_state.rs`. -/
def HUB_STACK_CAP : Nat := 32

/-- `HubFrame`; the source stores the chain-head snapshot as a raw pointer
(`head_ptr`), modelled here by the snapshot of the node list it points to. -/
structure HubFrame where
  hub_id : Nat
  head_snapshot : List ProxyNode
  orig_addr : Nat
  first_proxy : Nat
  return_addr : Nat
  stack_sp : Nat
  deriving DecidableEq, Repr

/-- The `prune_stale_frames` while-loop, acting on the reversed stack
(head = top of stack): pop while the top frame's `stack_sp <= current_sp`.
Returns the kept frames (still reversed) and the pop count. -/
def pruneRev : List HubFrame → Nat → List HubFrame × Nat
  | [], _ => ([], 0)
  | f :: rest, sp =>
    if f.stack_sp ≤ sp then
      let r := pruneRev rest sp
      (r.1, r.2 + 1)
    else (f :: rest, 0)

/-- `prune_stale_frames`: the stack is bottom-first (push appends at the
end, like `FixedStack`); the loop pops stale top frames. Returns the pruned
stack and the number of popped frames (reported to
`mark_stack_frames_pop`). -/
def pruneStale (stack : List HubFrame) (sp : Nat) : List HubFrame × Nat :=
  let r := pruneRev stack.reverse sp
  (r.1.reverse, r.2)

/-- Result of one `hub_push_stack` call: the proxy address handed back to
the trampoline, the new thread stack, the number of stale frames pruned and
whether a frame was pushed. -/
structure PushOutcome where
  next_func : Nat
  stack : List HubFrame
  popped : Nat
  pushed : Bool
  deriving DecidableEq, Repr

/-- `hub_push_stack` from `src/runtime/hub/stack.rs` (non-null hub pointer
path; the thread state is modelled as available): prune stale frames, scan
the whole stack for this `hub_id` (cycle check), select the first enabled
node of the chain-head snapshot, fall back to `orig_addr` when the selected
func equals `orig_addr` or the fixed stack is full, otherwise push one
`HubFrame`. -/
def hub_push_stack (hub : Hub) (hub_ptr return_addr current_sp : Nat)
    (stack0 : List HubFrame) : PushOutcome :=
  let hub_id := hub_ptr
  let head := hub.nodes
  let pruned := pruneStale stack0 current_sp
  let stack := pruned.1
  if stack.any (fun f => f.hub_id = hub_id) then
    ⟨hub.orig_addr, stack, pruned.2, false⟩
  else
    let next_func :=
      match head.find? (·.enabled) with
      | some n => n.func
      | none => hub.orig_addr
    if next_func = hub.orig_addr then
      ⟨hub.orig_addr, stack, pruned.2, false⟩
    else if HUB_STACK_CAP ≤ stack.length then
      ⟨hub.orig_addr, stack, pruned.2, false⟩
    else
      ⟨next_func,
        stack ++ [⟨hub_id, head, hub.orig_addr, next_func, return_addr, current_sp⟩],
        pruned.2, true⟩

/-- Global active-frame counter update performed by one `hub_push_stack`
call: `mark_stack_frames_pop(popped)` (saturating) then
`mark_stack_frame_push()` when a frame was pushed. -/
def activeAfterPush (counter : Nat) (r : PushOutcome) : Nat :=
  (counter - r.popped) + (if r.pushed then 1 else 0)

/-! ### ELF symbol lookup (`src/elf/hash.rs`, `src/elf/lookup.inc.rs`) -/

/-- `elf_gnu_hash` from `src/elf/hash.rs`: `h = 5381`, then per byte
`h = h.wrapping_add((h << 5).wrapping_add(ch))` on `u32`. Names are byte
lists; `u32` wrap-around is the explicit `% 2 ^ 32`. -/
def elf_gnu_hash (name : List Nat) : Nat :=
  name.foldl (fun h ch => (h + (h * 32 + ch) % 2 ^ 32) % 2 ^ 32) 5381

/-- The GNU-hash view of a parsed image (`Elf` fields used by
`gnu_hash_lookup`): `bucket_cnt = bucket.length`, `bloom_sz =
bloom.length`; `chain` is indexed by `symidx - symoffset`; `syms !i` is
`sym_name(i)` (`none` models a null/invalid name). Reads past the end of a
table (garbage memory in the source) are modelled as 0 / chain end. -/
structure GnuHashElf where
  symoffset : Nat
  bloom_shift : Nat
  bloom : List Nat
  bucket : List Nat
  chain : List Nat
  syms : List (Option (List Nat))
  deriving DecidableEq, Repr

/-- `sym_name(idx)`. -/
def GnuHashElf.sym_name (e : GnuHashElf) (i : Nat) : Option (List Nat) :=
  e.syms.getD i none

/-- The chain loop of `gnu_hash_lookup_def`: at index `i` the stored chain
word is the head of `words`; a match needs a readable name, `(hash | 1) ==
(symhash | 1)` and a byte-for-byte equal name; a word with its low bit set
ends the chain. -/
def gnuChainWalk (e : GnuHashElf) (symbol : List Nat) (hash : Nat) :
    Nat → List Nat → Except Errno Nat
  | _, [] => .error .NotFound
  | i, w :: rest =>
    let matched : Bool :=
      match e.sym_name i with
      | some name => ((hash ||| 1) == (w ||| 1)) && (name == symbol)
      | none => false
    if matched then .ok i
    else if w % 2 = 1 then .error .NotFound
    else gnuChainWalk e symbol hash (i + 1) rest

/-- `gnu_hash_lookup_def` from `src/elf/lookup.inc.rs`: bloom filter
double-bit test, bucket lookup, chain walk. `ELFCLASS_BITS = 64`
(`usize` on the 64-bit targets). -/
def gnu_hash_lookup_def (e : GnuHashElf) (symbol : List Nat) : Except Errno Nat :=
  if e.bucket.length = 0 then .error .NotFound
  else
    let hash := elf_gnu_hash symbol
    let bloom_idx := (hash / 64) % e.bloom.length
    let word := e.bloom.getD bloom_idx 0
    let mask := (2 ^ (hash % 64)) ||| (2 ^ ((hash >>> e.bloom_shift) % 64))
    if word &&& mask ≠ mask then .error .NotFound
    else
      let i := e.bucket.getD ((hash % e.bucket.length)) 0
      if i < e.symoffset then .error .NotFound
      else gnuChainWalk e symbol hash i (e.chain.drop (i - e.symoffset))

/-- The loop of `gnu_hash_lookup_undef`, with fuel `symoffset - i`. -/
def gnu_hash_lookup_undef_aux (e : GnuHashElf) (symbol : List Nat) :
    Nat → Nat → Except Errno Nat
  | _, 0 => .error .NotFound
  | i, fuel + 1 =>
    if i < e.symoffset then
      if e.sym_name i == some symbol then .ok i
      else gnu_hash_lookup_undef_aux e symbol (i + 1) fuel
    else .error .NotFound

/-- `gnu_hash_lookup_undef`: linear scan of the indices below `symoffset`. -/
def gnu_hash_lookup_undef (e : GnuHashElf) (symbol : List Nat) : Except Errno Nat :=
  gnu_hash_lookup_undef_aux e symbol 0 e.symoffset

/-- `gnu_hash_lookup`: try the defined-symbol path first, fall back to the
undefined-symbol scan. -/
def gnu_hash_lookup (e : GnuHashElf) (symbol : List Nat) : Except Errno Nat :=
  match gnu_hash_lookup_def e symbol with
  | .ok symidx => .ok symidx
  | .error _ => gnu_hash_lookup_undef e symbol

/-- Concrete GNU-hash image for the C6 witness: one bucket, one bloom word,
`symoffset = 1`, a single hashed symbol "ab" (bytes `[97, 98]`,
`elf_gnu_hash = 5863208`) at symidx 1 whose stored chain word is
`5863208 ||| 1` (chain end). -/
def gnuExample : GnuHashElf :=
  { symoffset := 1
    bloom_shift := 6
    bloom := [2 ^ 40 + 2 ^ 28]
    bucket := [1]
    chain := [5863209]
    syms := [some [], some [97, 98]] }

/-! ### Android packed relocations (`src/elf/packed.rs`) -/

/-- Reinterpret a `usize` bit pattern as `isize` (`val as isize`). -/
def usizeAsIsize (v : Nat) : Int :=
  if v < 2 ^ 63 then (v : Int) else (v : Int) - 2 ^ 64

/-- The byte loop of `Sleb128Decoder::next`: accumulate 7 payload bits per
byte (shifted into a 64-bit `usize`, wrap explicit) until a byte without
the continuation bit; running past the end of the stream is `Format`.
Returns `(value, shift, last byte, rest)`. -/
def slebLoop : List Nat → Nat → Nat → Except Errno (Nat × Nat × Nat × List Nat)
  | [], _, _ => .error .Format
  | b :: rest, value, shift =>
    let value := value ||| (((b &&& 0x7f) <<< shift) % 2 ^ 64)
    let shift := shift + 7
    if b &&& 0x80 = 0 then .ok (value, shift, b, rest)
    else slebLoop rest value shift

/-- `Sleb128Decoder::next`: decode one SLEB128 integer; sign-extend from
bit 6 of the last byte when fewer than 64 bits were produced
(`value |= (!0usize) << shift`). -/
def slebNext (bytes : List Nat) : Except Errno (Nat × List Nat) := do
  let (value, shift, b, rest) ← slebLoop bytes 0 0
  let value :=
    if shift < 64 ∧ b &&& 0x40 ≠ 0 then value ||| (2 ^ 64 - 2 ^ shift) else value
  return (value, rest)

/-- Group flags of the APS2 format (`PackedRelocIterator` constants). -/
def RELOCATION_GROUPED_BY_INFO_FLAG : Nat := 1

def RELOCATION_GROUPED_BY_OFFSET_DELTA_FLAG : Nat := 2

def RELOCATION_GROUPED_BY_ADDEND_FLAG : Nat := 4

def RELOCATION_GROUP_HAS_ADDEND_FLAG : Nat := 8

/-- `PackedRelocIterator` state; `bytes` is the remaining SLEB128 stream
(past the "APS2" magic). -/
structure PackedRelocIterator where
  bytes : List Nat
  relocation_count : Nat
  group_size : Nat
  group_flags : Nat
  group_r_offset_delta : Nat
  relocation_index : Nat
  relocation_group_index : Nat
  r_offset : Nat
  r_info : Nat
  r_addend : Int
  is_use_rela : Bool
  deriving DecidableEq, Repr

/-- `PackedRelocIterator::new`: read the header (`relocation_count`,
initial `r_offset`). -/
def PackedRelocIterator.new (stream : List Nat) (is_use_rela : Bool) :
    Except Errno PackedRelocIterator := do
  let (relocation_count, rest) ← slebNext stream
  let (r_offset, rest2) ← slebNext rest
  return { bytes := rest2, relocation_count := relocation_count, group_size := 0,
           group_flags := 0, group_r_offset_delta := 0, relocation_index := 0,
           relocation_group_index := 0, r_offset := r_offset, r_info := 0,
           r_addend := 0, is_use_rela := is_use_rela }

/-- `PackedRelocIterator::read_group_fields`: read a group header; a
group-shared RELA addend in a REL stream (`!is_use_rela`) is `Format`. -/
def PackedRelocIterator.read_group_fields (it : PackedRelocIterator) :
    Except Errno PackedRelocIterator := do
  let (group_size, rest) ← slebNext it.bytes
  let (group_flags, rest2) ← slebNext rest
  let it := { it with bytes := rest2, group_size := group_size,
                      group_flags := group_flags }
  let it ←
    if it.group_flags &&& RELOCATION_GROUPED_BY_OFFSET_DELTA_FLAG ≠ 0 then do
      let (d, rest3) ← slebNext it.bytes
      pure { it with bytes := rest3, group_r_offset_delta := d }
    else pure it
  let it ←
    if it.group_flags &&& RELOCATION_GROUPED_BY_INFO_FLAG ≠ 0 then do
      let (v, rest4) ← slebNext it.bytes
      pure { it with bytes := rest4, r_info := v }
    else pure it
  let it ←
    if it.group_flags &&& RELOCATION_GROUP_HAS_ADDEND_FLAG ≠ 0 ∧
        it.group_flags &&& RELOCATION_GROUPED_BY_ADDEND_FLAG ≠ 0 then
      if it.is_use_rela = false then throw Errno.Format
      else do
        let (v, rest5) ← slebNext it.bytes
        pure { it with bytes := rest5, r_addend := it.r_addend + usizeAsIsize v }
    else if it.group_flags &&& RELOCATION_GROUP_HAS_ADDEND_FLAG = 0 then
      pure { it with r_addend := 0 }
    else pure it
  return { it with relocation_group_index := 0 }

/-- Decoded relocation entry (`PackedReloc`). -/
structure PackedReloc where
  r_offset : Nat
  r_info : Nat
  deriving DecidableEq, Repr

/-- `PackedRelocIterator::next`: produce the next entry, reading a new
group header when the current group is exhausted. The per-entry addend is
read only when `is_use_rela` is set. -/
def PackedRelocIterator.next (it : PackedRelocIterator) :
    Except Errno (Option (PackedReloc × PackedRelocIterator)) := do
  if it.relocation_count ≤ it.relocation_index then
    return none
  let it ←
    if it.relocation_group_index = it.group_size then it.read_group_fields
    else pure it
  let it ←
    if it.group_flags &&& RELOCATION_GROUPED_BY_OFFSET_DELTA_FLAG ≠ 0 then
      pure { it with r_offset := (it.r_offset + it.group_r_offset_delta) % 2 ^ 64 }
    else do
      let (v, rest) ← slebNext it.bytes
      pure { it with bytes := rest, r_offset := (it.r_offset + v) % 2 ^ 64 }
  let it ←
    if it.group_flags &&& RELOCATION_GROUPED_BY_INFO_FLAG = 0 then do
      let (v, rest) ← slebNext it.bytes
      pure { it with bytes := rest, r_info := v }
    else pure it
  let it ←
    if it.is_use_rela = true ∧
        it.group_flags &&& RELOCATION_GROUP_HAS_ADDEND_FLAG ≠ 0 ∧
        it.group_flags &&& RELOCATION_GROUPED_BY_ADDEND_FLAG = 0 then do
      let (v, rest) ← slebNext it.bytes
      pure { it with bytes := rest, r_addend := it.r_addend + usizeAsIsize v }
    else pure it
  let it := { it with relocation_index := it.relocation_index + 1,
                      relocation_group_index := it.relocation_group_index + 1 }
  return some (⟨it.r_offset, it.r_info⟩, it)

instance {ε α : Type} [DecidableEq ε] [DecidableEq α] : DecidableEq (Except ε α) := fun a b =>
  match a, b with
  | .error e1, .error e2 =>
    if h : e1 = e2 then .isTrue (by rw [h])
    else .isFalse (fun he => h (Except.error.inj he))
  | .error _, .ok _ => .isFalse (fun he => Except.noConfusion he)
  | .ok _, .error _ => .isFalse (fun he => Except.noConfusion he)
  | .ok a1, .ok a2 =>
    if h : a1 = a2 then .isTrue (by rw [h])
    else .isFalse (fun he => h (Except.ok.inj he))

/-! ### GOT slot collection (`src/elf/api.inc.rs`, `src/elf/reloc.rs`,
`src/elf/check_init.inc.rs`) -/

/-- `elf_r_sym`: the high 32 bits of `r_info`. -/
def elf_r_sym (r_info : Nat) : Nat := r_info >>> 32

/-- `elf_r_type`: the low 32 bits of `r_info`. -/
def elf_r_type (r_info : Nat) : Nat := r_info &&& 0xffffffff

/-- Generic relocation kinds (aarch64 values of `R_GENERIC_*`). -/
def R_GENERIC_JUMP_SLOT : Nat := 1026

def R_GENERIC_GLOB_DAT : Nat := 1025

def R_GENERIC_ABS : Nat := 257

/-- The `Elf` fields consumed by `find_got_slots`/`collect_slot`:
relocation tables are the decoded `(r_offset, r_info)` entries (an absent
table is the empty list), `relandroid` is the APS2 byte stream past the
magic, `mem` is process memory (`ptr::read` of a slot), and `symidxResult`
is the outcome of `find_symidx_by_name` for the queried symbol (the hash
lookup modelled separately as `gnu_hash_lookup`). -/
structure ElfView where
  base_addr : Nat
  bias_addr : Nat
  load_segs : List (Nat × Nat)
  mem : List (Nat × Nat)
  relplt : List (Nat × Nat)
  reldyn : List (Nat × Nat)
  relandroid : Option (List Nat)
  is_use_rela : Bool
  symidxResult : Except Errno Nat
  deriving Repr

/-- `is_addr_in_load_segments`: `bias + p_vaddr ≤ addr < bias + p_vaddr +
p_memsz` for some `PT_LOAD` header (the saturating add cannot overflow on
`Nat`). -/
def ElfView.is_addr_in_load_segments (e : ElfView) (addr : Nat) : Bool :=
  e.load_segs.any fun seg =>
    decide (e.bias_addr + seg.1 ≤ addr ∧ addr < e.bias_addr + seg.1 + seg.2)

/-- `ptr::read(addr as *const usize)` of process memory. -/
def ElfView.read_word (e : ElfView) (addr : Nat) : Nat :=
  (lookupA e.mem addr).getD 0

/-- `BTreeSet<usize>::insert` followed by sorted iteration, as a sorted
duplicate-free insertion. -/
def insertSorted : List Nat → Nat → List Nat
  | [], a => [a]
  | x :: rest, a =>
    if a < x then a :: x :: rest
    else if a = x then x :: rest
    else x :: insertSorted rest a

/-- `collect_slot` from `src/elf/api.inc.rs`. -/
def collect_slot (e : ElfView) (slots : List Nat) (is_plt : Bool) (symidx : Nat)
    (callee_addrs : Option (List Nat)) (r_offset r_info : Nat) :
    Except Errno (List Nat) :=
  if elf_r_sym r_info ≠ symidx then .ok slots
  else
    if is_plt = true ∧ elf_r_type r_info ≠ R_GENERIC_JUMP_SLOT then .ok slots
    else if is_plt = false ∧ elf_r_type r_info ≠ R_GENERIC_GLOB_DAT ∧
        elf_r_type r_info ≠ R_GENERIC_ABS then .ok slots
    else
      let addr := e.bias_addr + r_offset
      if addr < e.base_addr then .error .Format
      else
        match callee_addrs with
        | some expected =>
          let value := e.read_word addr
          if value ∉ expected then
            if ¬ (is_plt = true ∧ expected.length = 1 ∧
                e.is_addr_in_load_segments value = true) then .ok slots
            else .ok (insertSorted slots addr)
          else .ok (insertSorted slots addr)
        | none => .ok (insertSorted slots addr)

/-- The per-table loop of `find_got_slots` over already-decoded
`.rel(a).plt` / `.rel(a).dyn` entries (errors abort, the partial set local
to the call is discarded). -/
def relFold (e : ElfView) (is_plt : Bool) (symidx : Nat)
    (callee_addrs : Option (List Nat)) :
    List Nat → List (Nat × Nat) → Except Errno (List Nat)
  | slots, [] => .ok slots
  | slots, r :: rest =>
    match collect_slot e slots is_plt symidx callee_addrs r.1 r.2 with
    | .error er => .error er
    | .ok slots2 => relFold e is_plt symidx callee_addrs slots2 rest

/-- The `while let Some(reloc) = packed.next()?` loop of `find_got_slots`
(fuel bounds the iteration count; `relocation_count + 1` suffices since
every produced entry advances `relocation_index`). -/
def findGotSlotsPacked (e : ElfView) (symidx : Nat)
    (callee_addrs : Option (List Nat)) :
    List Nat → PackedRelocIterator → Nat → Except Errno (List Nat)
  | slots, _, 0 => .ok slots
  | slots, it, fuel + 1 =>
    match it.next with
    | .error er => .error er
    | .ok none => .ok slots
    | .ok (some (r, it2)) =>
      match collect_slot e slots false symidx callee_addrs r.r_offset r.r_info with
      | .error er => .error er
      | .ok slots2 => findGotSlotsPacked e symidx callee_addrs slots2 it2 fuel

/-- `find_got_slots`: a missing symbol yields the empty slot list; then
`.rel(a).plt` entries (`is_plt`), `.rel(a).dyn` entries, and the packed
stream are scanned with `collect_slot`. -/
def find_got_slots (e : ElfView) (callee_addrs : Option (List Nat)) :
    Except Errno (List Nat) :=
  match e.symidxResult with
  | .error .NotFound => .ok []
  | .error er => .error er
  | .ok symidx =>
    match relFold e true symidx callee_addrs [] e.relplt with
    | .error er => .error er
    | .ok slots1 =>
      match relFold e false symidx callee_addrs slots1 e.reldyn with
      | .error er => .error er
      | .ok slots2 =>
        match e.relandroid with
        | none => .ok slots2
        | some stream =>
          match PackedRelocIterator.new stream e.is_use_rela with
          | .error er => .error er
          | .ok it =>
            findGotSlotsPacked e symidx callee_addrs slots2 it
              (it.relocation_count + 1)

/-- Concrete image for the C7 witness: base = bias = 1000, one PT_LOAD
covering [1000, 1100), a PLT relocation for symidx 7 at `r_offset = 40`
(slot address 1040) whose slot currently holds 1010 — an unresolved
lazy-binding stub inside the image. -/
def elfExample : ElfView :=
  { base_addr := 1000, bias_addr := 1000, load_segs := [(0, 100)],
    mem := [(1040, 1010)], relplt := [(40, 7 * 2 ^ 32 + 1026)], reldyn := [],
    relandroid := none, is_use_rela := false, symidxResult := .ok 7 }

/-- Image whose symbol lookup misses, for the C7 witness. -/
def elfNoSym : ElfView :=
  { base_addr := 1000, bias_addr := 1000, load_segs := [], mem := [],
    relplt := [(40, 7 * 2 ^ 32 + 1026)], reldyn := [], relandroid := none,
    is_use_rela := false, symidxResult := .error .NotFound }

/-! ### GOT slot writes (`src/runtime/refresh/ops.rs` `patch_slot`,
`src/elf/lookup.inc.rs` `replace_function`, `src/android/memory.rs`) -/

/-- `PROT_READ_FLAG` / `PROT_WRITE_FLAG` from `src/android/memory.rs`. -/
def PROT_READ_FLAG : Nat := 1

def PROT_WRITE_FLAG : Nat := 2

/-- Page-protection and word memory visible to the engine. -/
structure MemState where
  mem : List (Nat × Nat)
  prot : List (Nat × Nat)
  deriving DecidableEq, Repr

/-- Current protection of the page holding `addr` (`/proc/self/maps`). -/
def protAt (m : MemState) (addr : Nat) : Nat := (lookupA m.prot addr).getD 0

/-- Current word at `addr`. -/
def memAt (m : MemState) (addr : Nat) : Nat := (lookupA m.mem addr).getD 0

/-- Oracles for the fallible externals around a slot write:
`getProtErr`/`setProtErr` give the error (if any) of
`get_addr_protect`/`set_addr_protect`; `storeActual addr v` is the value
observable in the slot after a store of `v` (≠ v models the racing writer
or failing write that read-back verification exists to catch);
`storeFault`/`readFault` are signal-guard trips. -/
structure MemEnv where
  getProtErr : Nat → Option Errno
  setProtErr : Nat → Nat → Option Errno
  storeActual : Nat → Nat → Nat
  storeFault : Nat → Bool
  readFault : Nat → Bool

/-- `read_slot` from `src/runtime/refresh/ops.rs`: a guarded read; a
signal trip is `ReadElf`. -/
def read_slot (env : MemEnv) (m : MemState) (addr : Nat) : Except Errno Nat :=
  if env.readFault addr then .error .ReadElf else .ok (memAt m addr)

/-- `patch_slot` from `src/runtime/refresh/ops.rs`: query protection
(`GetProt` on failure), make the page writable if needed (`SetProt`),
store with a SeqCst atomic store and read the slot back with a SeqCst
load (a guard trip is `SetGot`; on a fault the slot is modelled
unchanged), compare the read-back against the intended value
(`GotVerify` on mismatch), restore the previous protection in every
branch (failure only logged), and fence the icache (a no-op here). -/
def patch_slot (env : MemEnv) (m : MemState) (addr value : Nat) :
    Except Errno Unit × MemState :=
  match env.getProtErr addr with
  | some _ => (.error .GetProt, m)
  | none =>
    let old_prot := protAt m addr
    let writable_prot := PROT_READ_FLAG ||| PROT_WRITE_FLAG
    if old_prot ≠ writable_prot ∧ (env.setProtErr addr writable_prot).isSome then
      (.error .SetProt, m)
    else
      let m1 := if old_prot ≠ writable_prot then
          { m with prot := insertA m.prot addr writable_prot } else m
      if env.storeFault addr then
        let m2 := if old_prot ≠ writable_prot ∧ (env.setProtErr addr old_prot).isNone
          then { m1 with prot := insertA m1.prot addr old_prot } else m1
        (.error .SetGot, m2)
      else
        let written := env.storeActual addr value
        let m2 := { m1 with mem := insertA m1.mem addr written }
        let m3 := if old_prot ≠ writable_prot ∧ (env.setProtErr addr old_prot).isNone
          then { m2 with prot := insertA m2.prot addr old_prot } else m2
        if written = value then (.ok (), m3) else (.error .GotVerify, m3)

/-- `Elf::replace_function` from `src/elf/lookup.inc.rs`: early `Ok` when
the slot already holds `new_func`; protection errors propagate raw; the
write is a plain `ptr::write` (same adversarial store oracle) with NO
read-back comparison — the function returns `Ok` regardless of what the
slot holds afterwards; protection is restored when it was changed
(restore failure only logged). Returns the reported `old_func` as well. -/
def replace_function (env : MemEnv) (m : MemState) (addr new_func : Nat) :
    Except Errno Unit × MemState × Option Nat :=
  if memAt m addr = new_func then (.ok (), m, none)
  else
    match env.getProtErr addr with
    | some er => (.error er, m, none)
    | none =>
      let old_prot := protAt m addr
      let need_prot := PROT_READ_FLAG ||| PROT_WRITE_FLAG
      match (if old_prot ≠ need_prot then env.setProtErr addr need_prot
          else none) with
      | some er => (.error er, m, none)
      | none =>
        let m1 := if old_prot ≠ need_prot then
            { m with prot := insertA m.prot addr need_prot } else m
        let old_addr := memAt m1 addr
        let written := env.storeActual addr new_func
        let m2 := { m1 with mem := insertA m1.mem addr written }
        let m3 := if old_prot ≠ need_prot ∧ (env.setProtErr addr old_prot).isNone
          then { m2 with prot := insertA m2.prot addr old_prot } else m2
        (.ok (), m3, some old_addr)

/-- An adversarial store environment for the C3 counterexample: every
store leaves `0xdead` in the slot; protections and guards behave. -/
def advEnv : MemEnv :=
  { getProtErr := fun _ => none, setProtErr := fun _ _ => none,
    storeActual := fun _ _ => 0xdead, storeFault := fun _ => false,
    readFault := fun _ => false }

/-- Initial machine for the C3 counterexample: slot 50 holds 1 on a
read-write page. -/
def memExample : MemState := { mem := [(50, 1)], prot := [(50, 3)] }

/-! ### Task and state store (`src/runtime/state.rs`) -/

/-- `TaskType`. -/
inductive TaskType where
  | Single
  | Partial
  | All
  deriving DecidableEq, Repr

/-- `HookMode` from the api. -/
inductive HookMode where
  | Automatic
  | Manual
  deriving DecidableEq, Repr

/-- `Task`; the callback entries carry raw function pointers and user
args, modelled by presence flags (`caller_allow_filter`, `hooked`) — the
engine only tests their presence and hands them back out. -/
structure Task where
  stub : Nat
  task_type : TaskType
  caller_path_name : Option String
  caller_allow_filter : Bool
  callee_path_name : Option String
  sym_name : String
  new_func : Nat
  hooked : Bool
  deriving DecidableEq, Repr

/-- `SlotKey`. -/
structure SlotKey where
  caller_path_name : String
  caller_base_addr : Nat
  caller_instance_id : Nat
  caller_namespace_id : Nat
  slot_addr : Nat
  deriving DecidableEq, Repr

/-- `SlotEntry`. -/
structure SlotEntry where
  orig_func : Nat
  task_chain : List Nat
  hub_ptr : Nat
  deriving DecidableEq, Repr

/-- `ModuleInfo`. -/
structure ModuleInfo where
  pathname : String
  base_addr : Nat
  instance_id : Nat
  namespace_id : Nat
  deriving DecidableEq, Repr

/-- `RecordOp`. -/
inductive RecordOp where
  | Hook
  | Unhook
  deriving DecidableEq, Repr

/-- `RecordEntry`. -/
structure RecordEntry where
  op : RecordOp
  ts_ms : Nat
  status_code : Int
  caller_lib_name : String
  lib_name : String
  sym_name : String
  new_addr : Nat
  stub : Nat
  deriving DecidableEq, Repr

/-- `InitInfo`. -/
structure InitInfo where
  status : Errno
  mode : HookMode
  deriving DecidableEq, Repr

/-- `CoreState` (the fields driving the modelled paths; the monitor
thread bookkeeping, dlopen callbacks and pending-handle queue are event
plumbing outside this model). -/
structure CoreState where
  process_id : Nat
  init : InitInfo
  debug : Bool
  next_stub : Nat
  tasks : List (Nat × Task)
  task_order : List Nat
  task_slots : List (Nat × List SlotKey)
  slots : List (SlotKey × SlotEntry)
  single_task_targets : List (Nat × String)
  ignore_callers : List String
  known_modules : List String
  recordable : Bool
  records : List RecordEntry
  deriving DecidableEq, Repr

/-- Heap and machine state outside `CoreState`: process memory and page
protections, the live hub heap (`Box::into_raw` pointers), the
retired-hub delay list, allocator counters for fresh hub/trampoline
addresses, the wall clock and the global active-frame counter. -/
structure World where
  machine : MemState
  hubs : List (Nat × Hub)
  retired : List RetiredHub
  nextHubPtr : Nat
  nextTrampo : Nat
  now : Nat
  active_frames : Nat
  deriving DecidableEq, Repr

/-- `collect_retired` (world level): expired entries leave the retired
list and their hubs are freed from the heap. -/
def collect_retired_w (force : Bool) (w : World) : World :=
  let r := collectRetiredLoop force w.now w.active_frames w.retired 0 []
  { w with retired := r.1,
           hubs := r.2.foldl (fun hs p => eraseA hs p) w.hubs }

/-- `create_hub`: collect retired hubs, then allocate the hub box and its
trampoline (failure `NewTrampo` frees the partial hub — modelled by
leaving the heap unchanged). Fresh pointers come from the allocator
counters. -/
def create_hub (trampoAllocOk : Bool) (w : World) (orig_addr : Nat) :
    Except Errno Nat × World :=
  let w := collect_retired_w false w
  if trampoAllocOk = false then (.error .NewTrampo, w)
  else
    (.ok w.nextHubPtr,
      { w with hubs := insertA w.hubs w.nextHubPtr ⟨orig_addr, w.nextTrampo, []⟩,
               nextHubPtr := w.nextHubPtr + 1,
               nextTrampo := w.nextTrampo + 1 })

/-- `destroy_hub`: with `with_delay` the hub joins the retired list
(timestamped now); otherwise it is freed immediately. -/
def destroy_hub_w (w : World) (hub_ptr : Nat) (with_delay : Bool) : World :=
  if hub_ptr = 0 then w
  else
    let w := collect_retired_w false w
    if with_delay then { w with retired := w.retired ++ [⟨hub_ptr, w.now⟩] }
    else { w with hubs := eraseA w.hubs hub_ptr }

/-- `hub_trampo` (null → 0; a dangling pointer would be undefined in the
source and is excluded by the state invariant). -/
def hub_trampo_w (w : World) (hub_ptr : Nat) : Nat :=
  match lookupA w.hubs hub_ptr with
  | some hub => hub.trampo
  | none => 0

/-- `first_enabled` through the heap. -/
def first_enabled_w (w : World) (hub_ptr : Nat) : Nat :=
  match lookupA w.hubs hub_ptr with
  | some hub => first_enabled hub
  | none => 0

/-- `add_proxy` through the heap. -/
def add_proxy_w (w : World) (hub_ptr proxy_func : Nat) : Errno × World :=
  if hub_ptr = 0 ∨ proxy_func = 0 then (.InvalidArg, w)
  else
    match lookupA w.hubs hub_ptr with
    | none => (.InvalidArg, w)
    | some hub =>
      let r := add_proxy hub proxy_func
      (r.1, { w with hubs := insertA w.hubs hub_ptr r.2 })

/-- `del_proxy` through the heap. -/
def del_proxy_w (w : World) (hub_ptr proxy_func : Nat) : (Errno × Bool) × World :=
  if hub_ptr = 0 ∨ proxy_func = 0 then ((.InvalidArg, false), w)
  else
    match lookupA w.hubs hub_ptr with
    | none => ((.InvalidArg, false), w)
    | some hub =>
      let r := del_proxy hub proxy_func
      (r.1, { w with hubs := insertA w.hubs hub_ptr r.2 })

/-- `{:x}` formatting of `module_instance_key`. -/
def natToHex (n : Nat) : String := String.mk (Nat.toDigits 16 n)

/-- `module_instance_key`: `pathname#base%instance^namespace`. -/
def module_instance_key (pathname : String) (base inst ns : Nat) : String :=
  pathname ++ "#" ++ natToHex base ++ "%" ++ natToHex inst ++ "^" ++ natToHex ns

/-- `module_key`. -/
def module_key (m : ModuleInfo) : String :=
  module_instance_key m.pathname m.base_addr m.instance_id m.namespace_id

/-- `CalleeResolve`. -/
structure CalleeResolve where
  addrs : Option (List Nat)
  deriving DecidableEq, Repr

/-- `CallbackEvent` (the `HookedEntry` callback pointer and arg are not
interpreted; an event is recorded only when the task carries one). -/
structure CallbackEvent where
  task_stub : Nat
  status : Errno
  caller_path_name : String
  sym_name : String
  new_func : Nat
  prev_func : Nat
  deriving DecidableEq, Repr

/-- Oracles for the refresh pipeline's externals: slot memory syscalls,
trampoline allocation, guarded ELF parsing (`init_elf_guard`), the CFI
module preparation, GOT slot discovery (`find_slots_guard`, modelled in
detail as `find_got_slots` separately), module enumeration, callee
resolution, the Partial-scope user filter inside `is_task_match_caller`,
the rule engine's `should_ignore`, and `getpid()`. -/
structure RefreshEnv where
  mem : MemEnv
  trampoAllocOk : Bool
  elfInitErr : ModuleInfo → Option Errno
  cfiStatus : ModuleInfo → Errno
  findSlots : ModuleInfo → String → Option (List Nat) → Except Errno (List Nat)
  modules : List ModuleInfo
  resolveCallee : Task → Except Errno CalleeResolve
  taskMatchCaller : Task → ModuleInfo → Bool
  shouldIgnore : ModuleInfo → List String → Bool
  current_pid : Nat

/-- `emit_event`: push a callback event when the task has a callback. -/
def emit_event (task : Task) (caller : ModuleInfo) (status : Errno)
    (prev_func : Nat) (events : List CallbackEvent) : List CallbackEvent :=
  if task.hooked then
    events ++ [⟨task.stub, status, caller.pathname, task.sym_name,
      task.new_func, prev_func⟩]
  else events

/-- `emit_nosym_event`: only Single tasks get a `NoSym` event. -/
def emit_nosym_event (task : Task) (caller : ModuleInfo)
    (events : List CallbackEvent) : List CallbackEvent :=
  if task.task_type = TaskType.Single then
    emit_event task caller .NoSym 0 events
  else events

/-- `BTreeSet<SlotKey>::insert`. -/
def insertKeySet (l : List SlotKey) (k : SlotKey) : List SlotKey :=
  if k ∈ l then l else l ++ [k]

/-- Result of the slot loop of `apply_task_for_module`. -/
structure SlotLoopOut where
  result : Except Errno Unit
  cs : CoreState
  w : World
  events : List CallbackEvent
  hooked_any : Bool
  deriving Repr

/-- Outcome of one iteration of the slot loop: either continue with the
updated accumulators, or abort the whole `apply_task_for_module` call
(the `?` operator). -/
inductive SlotStep where
  | cont (cs : CoreState) (w : World) (events : List CallbackEvent)
      (hooked_any : Bool)
  | abort (out : SlotLoopOut)

/-- One iteration of the `for slot_addr in got_slots` loop of
`apply_task_for_module` (`src/runtime/refresh/apply.rs`): create-or-fetch
the `SlotEntry` (capturing `orig_func` via `read_slot`, 0 on fault), skip
when the task is already in the chain, ensure the hub (errors abort the
whole call via `?`), emit `OrigAddr` in Manual mode, `add_proxy` (only
`Ok`/`Dup` continue), patch the slot to the hub trampoline (`?`), then
append the stub to the chain and index the slot under the task. An abort
keeps all mutations made so far. -/
def applySlotStep (env : RefreshEnv) (task : Task) (caller : ModuleInfo)
    (cs0 : CoreState) (w0 : World) (events0 : List CallbackEvent)
    (hooked_any : Bool) (slot_addr : Nat) : SlotStep :=
  let cs := cs0
  let w := w0
  let events := events0
  let key : SlotKey := ⟨caller.pathname, caller.base_addr, caller.instance_id,
      caller.namespace_id, slot_addr⟩
    let fetched : SlotEntry × CoreState :=
      match lookupA cs.slots key with
      | some s => (s, cs)
      | none =>
        let entry : SlotEntry :=
          { orig_func := (read_slot env.mem w.machine slot_addr).toOption.getD 0,
            task_chain := [], hub_ptr := 0 }
        (entry, { cs with slots := insertA cs.slots key entry })
    let slot := fetched.1
    let cs := fetched.2
    if task.stub ∈ slot.task_chain then
      .cont cs w events true
    else
      let hubRes := if slot.hub_ptr = 0 then create_hub env.trampoAllocOk w slot.orig_func
        else (.ok slot.hub_ptr, w)
      let w := hubRes.2
      match hubRes.1 with
      | .error er => .abort ⟨.error er, cs, w, events, hooked_any⟩
      | .ok hub_ptr =>
        let updated : SlotEntry × CoreState :=
          if slot.hub_ptr = 0 then
            let slot2 := { slot with hub_ptr := hub_ptr }
            (slot2, { cs with slots := insertA cs.slots key slot2 })
          else (slot, cs)
        let slot := updated.1
        let cs := updated.2
        let prev_func := first_enabled_w w hub_ptr
        let events := if cs.init.mode = HookMode.Manual then
            emit_event task caller .OrigAddr prev_func events
          else events
        let ap := add_proxy_w w hub_ptr task.new_func
        let w := ap.2
        if ap.1 ≠ .Ok ∧ ap.1 ≠ .Dup then .abort ⟨.error ap.1, cs, w, events, hooked_any⟩
        else
          let pr := patch_slot env.mem w.machine slot_addr (hub_trampo_w w hub_ptr)
          let w := { w with machine := pr.2 }
          match pr.1 with
          | .error er => .abort ⟨.error er, cs, w, events, hooked_any⟩
          | .ok _ =>
            let slot2 := { slot with task_chain := slot.task_chain ++ [task.stub] }
            let cs := { cs with slots := insertA cs.slots key slot2 }
            let keyset := insertKeySet ((lookupA cs.task_slots task.stub).getD []) key
            let cs := { cs with task_slots := insertA cs.task_slots task.stub keyset }
            let events := emit_event task caller .Ok prev_func events
            .cont cs w events true

/-- The slot loop itself: run steps until an abort (`?`) or the list
end. -/
def applySlots (env : RefreshEnv) (task : Task) (caller : ModuleInfo) :
    CoreState → World → List CallbackEvent → Bool → List Nat → SlotLoopOut
  | cs, w, events, hooked_any, [] => ⟨.ok (), cs, w, events, hooked_any⟩
  | cs, w, events, hooked_any, slot_addr :: rest =>
    match applySlotStep env task caller cs w events hooked_any slot_addr with
    | .cont cs1 w1 events1 ha1 => applySlots env task caller cs1 w1 events1 ha1 rest
    | .abort out => out

/-- Result of `apply_task_for_module`. -/
structure ApplyOut where
  result : Except Errno Unit
  cs : CoreState
  w : World
  events : List CallbackEvent
  deriving Repr

/-- `apply_task_for_module` (`src/runtime/refresh/apply.rs`). -/
def apply_task_for_module (env : RefreshEnv) (cs : CoreState) (w : World)
    (task : Task) (caller : ModuleInfo) (callee : CalleeResolve) : ApplyOut :=
  if task.callee_path_name.isSome ∧ callee.addrs = some [] then
    ⟨.ok (), cs, w, emit_nosym_event task caller []⟩
  else
    match env.elfInitErr caller with
    | some er => ⟨.error er, cs, w, []⟩
    | none =>
      let cfi := env.cfiStatus caller
      if cfi ≠ .Ok then ⟨.error cfi, cs, w, emit_event task caller cfi 0 []⟩
      else
        match env.findSlots caller task.sym_name callee.addrs with
        | .error er => ⟨.error er, cs, w, []⟩
        | .ok got_slots =>
          if got_slots = [] then ⟨.ok (), cs, w, emit_nosym_event task caller []⟩
          else
            let r := applySlots env task caller cs w [] false got_slots
            match r.result with
            | .error er => ⟨.error er, r.cs, r.w, r.events⟩
            | .ok _ =>
              let stt := insertA r.cs.single_task_targets task.stub (module_key caller)
              let cs2 := if r.hooked_any = true ∧ task.task_type = .Single ∧
                  lookupA r.cs.single_task_targets task.stub = none then
                { r.cs with single_task_targets := stt }
                else r.cs
              ⟨.ok (), cs2, r.w, r.events⟩

/-! ### Unhook and restore (`src/runtime/refresh.rs`) -/

/-- The per-slot loop of `unhook_task`: remove the stub from the chain;
with no hub just restore `orig_func`; with a hub `del_proxy` the task's
function, patch the slot to the trampoline (someone still enabled) or to
`orig_func`, retire the hub when nobody is enabled, and drop the
`SlotEntry` when the chain emptied or the hub died. Patch errors record
only the first error and never stop the loop. -/
def unhookSlotLoop (env : MemEnv) (target_func task_stub : Nat) :
    CoreState → World → Errno → List SlotKey → Errno × CoreState × World
  | cs, w, first_err, [] => (first_err, cs, w)
  | cs, w, first_err, key :: rest =>
    match lookupA cs.slots key with
    | none => unhookSlotLoop env target_func task_stub cs w first_err rest
    | some slot0 =>
      let slot := { slot0 with
        task_chain := slot0.task_chain.filter (fun s => decide (¬ s = task_stub)) }
      if slot.hub_ptr = 0 then
        let pr := patch_slot env w.machine key.slot_addr slot.orig_func
        let w := { w with machine := pr.2 }
        let first_err := match pr.1 with
          | .error er => if first_err = .Ok then er else first_err
          | .ok _ => first_err
        let cs := if slot.task_chain = [] then { cs with slots := eraseA cs.slots key }
          else { cs with slots := insertA cs.slots key slot }
        unhookSlotLoop env target_func task_stub cs w first_err rest
      else
        let dp := del_proxy_w w slot.hub_ptr target_func
        let w := dp.2
        let have_enabled := dp.1.2
        let target_addr := if have_enabled then hub_trampo_w w slot.hub_ptr
          else slot.orig_func
        let pr := patch_slot env w.machine key.slot_addr target_addr
        let w := { w with machine := pr.2 }
        let first_err := match pr.1 with
          | .error er => if first_err = .Ok then er else first_err
          | .ok _ => first_err
        let retire : SlotEntry × World :=
          if have_enabled = false then
            ({ slot with hub_ptr := 0 }, destroy_hub_w w slot.hub_ptr true)
          else (slot, w)
        let slot2 := retire.1
        let w := retire.2
        let cs := if slot.task_chain = [] ∨ have_enabled = false then
            { cs with slots := eraseA cs.slots key }
          else { cs with slots := insertA cs.slots key slot2 }
        unhookSlotLoop env target_func task_stub cs w first_err rest

/-- `unhook_task` (`src/runtime/refresh.rs`): take the task's slot set,
run the per-slot loop, drop the single-task target binding. -/
def unhook_task (env : MemEnv) (cs : CoreState) (w : World) (task_stub : Nat) :
    Errno × CoreState × World :=
  match lookupA cs.task_slots task_stub with
  | none => (.Ok, cs, w)
  | some slot_keys =>
    let cs := { cs with task_slots := eraseA cs.task_slots task_stub }
    let target_func := ((lookupA cs.tasks task_stub).map Task.new_func).getD 0
    let r := unhookSlotLoop env target_func task_stub cs w .Ok slot_keys
    let cs2 := { r.2.1 with
      single_task_targets := eraseA r.2.1.single_task_targets task_stub }
    (r.1, cs2, r.2.2)

/-- First loop of `restore_all`: patch every slot back to `orig_func`,
keeping only the first error. -/
def restoreLoop (env : MemEnv) (cs : CoreState) :
    World → Errno → List SlotKey → Errno × World
  | w, first_err, [] => (first_err, w)
  | w, first_err, key :: rest =>
    match lookupA cs.slots key with
    | none => restoreLoop env cs w first_err rest
    | some slot =>
      let pr := patch_slot env w.machine key.slot_addr slot.orig_func
      let w := { w with machine := pr.2 }
      let first_err := match pr.1 with
        | .error er => if first_err = .Ok then er else first_err
        | .ok _ => first_err
      restoreLoop env cs w first_err rest

/-- `restore_all` (`src/runtime/refresh.rs`): restore every slot,
retire every hub (with delay), clear the slot maps. -/
def restore_all (env : MemEnv) (cs : CoreState) (w : World) :
    Errno × CoreState × World :=
  let r := restoreLoop env cs w .Ok (cs.slots.map Prod.fst)
  let w2 := cs.slots.foldl
    (fun wacc p => if p.2.hub_ptr ≠ 0 then destroy_hub_w wacc p.2.hub_ptr true else wacc)
    r.2
  (r.1, { cs with slots := [], task_slots := [], single_task_targets := [] }, w2)

/-- `ensure_process_context` (`src/runtime/lifecycle/process.rs`): on a
fork child (pid changed, both nonzero) restore all slots, clear the hook
bookkeeping and per-thread stacks, force hub reclamation and adopt the
new pid; otherwise at most record the pid. -/
def ensure_process_context (env : MemEnv) (current_pid : Nat)
    (cs : CoreState) (w : World) : CoreState × World :=
  if current_pid = 0 then (cs, w)
  else if cs.process_id = current_pid then (cs, w)
  else if cs.process_id = 0 then ({ cs with process_id := current_pid }, w)
  else
    let r := restore_all env cs w
    let cs2 := { r.2.1 with
      task_slots := [], slots := [], single_task_targets := [],
      known_modules := [], process_id := current_pid }
    (cs2, collect_retired_w true r.2.2)

/-! ### Records (`src/runtime/record.rs`) -/

/-- `MAX_RECORDS`. -/
def MAX_RECORDS : Nat := 4096

/-- `push_record`: bounded FIFO, only when recording is enabled. -/
def push_record (cs : CoreState) (entry : RecordEntry) : CoreState :=
  if cs.recordable = false then cs
  else
    let records := if MAX_RECORDS ≤ cs.records.length then cs.records.drop 1
      else cs.records
    { cs with records := records ++ [entry] }

/-- `add_unhook_record`. -/
def add_unhook_record (cs : CoreState) (now_ms : Nat) (status_code : Int)
    (stub : Nat) : CoreState :=
  push_record cs ⟨.Unhook, now_ms, status_code, "unknown", "", "", 0, stub⟩

/-- `add_hook_record`. -/
def add_hook_record (cs : CoreState) (now_ms : Nat) (status_code : Int)
    (lib_name sym_name : String) (new_addr stub : Nat) : CoreState :=
  push_record cs ⟨.Hook, now_ms, status_code, "unknown", lib_name, sym_name,
    new_addr, stub⟩

/-! ### `unhook` entry (`src/runtime/lifecycle/entry_hook.rs`) -/

/-- `unhook`: reject stub 0, require successful init, recover fork
context, reject unregistered stubs, then `unhook_task`, audit record and
erase the task from every index. -/
def unhook (env : MemEnv) (current_pid : Nat) (cs : CoreState) (w : World)
    (stub : Nat) : Errno × CoreState × World :=
  if stub = 0 then (.InvalidArg, cs, w)
  else if cs.init.status ≠ .Ok then (cs.init.status, cs, w)
  else
    let ctx := ensure_process_context env current_pid cs w
    let cs := ctx.1
    let w := ctx.2
    if lookupA cs.tasks stub = none then (.InvalidArg, cs, w)
    else
      let r := unhook_task env cs w stub
      let status := r.1
      let cs := add_unhook_record r.2.1 (r.2.2.now * 1000) status.as_i32 stub
      let cs := { cs with
        tasks := eraseA cs.tasks stub,
        task_order := cs.task_order.filter (fun v => decide (¬ v = stub)),
        task_slots := eraseA cs.task_slots stub }
      (status, cs, r.2.2)

/-! ### Refresh pipeline (`src/runtime/refresh.rs`, `matcher.rs`,
`module_registry.rs`, `task_ops.rs`) -/

/-- `prune_dead_slots`: drop slots whose caller module is no longer
alive, retiring their hubs and cleaning the `task_slots` index. -/
def prune_dead_slots (cs : CoreState) (w : World) (alive : List String) :
    CoreState × World :=
  let stale := (cs.slots.filter (fun p => decide (¬ module_instance_key
      p.1.caller_path_name p.1.caller_base_addr p.1.caller_instance_id
      p.1.caller_namespace_id ∈ alive))).map Prod.fst
  stale.foldl (fun acc key =>
    match lookupA acc.1.slots key with
    | none => acc
    | some slot =>
      let cs1 := { acc.1 with slots := eraseA acc.1.slots key }
      let w1 := if slot.hub_ptr ≠ 0 then destroy_hub_w acc.2 slot.hub_ptr true
        else acc.2
      let cs2 := slot.task_chain.foldl (fun cs stub =>
        match lookupA cs.task_slots stub with
        | none => cs
        | some slot_set =>
          let slot_set := slot_set.filter (fun k => decide (¬ k = key))
          if slot_set = [] then { cs with task_slots := eraseA cs.task_slots stub }
          else { cs with task_slots := insertA cs.task_slots stub slot_set }) cs1
      (cs2, w1)) (cs, w)

/-- `prune_dead_single_task_targets`. -/
def prune_dead_single_task_targets (cs : CoreState) (alive : List String) :
    CoreState :=
  let stale := ((cs.single_task_targets.filter (fun p =>
      let has_live_slot : Bool := match lookupA cs.task_slots p.1 with
        | some s => decide (¬ s = [])
        | none => false
      !(has_live_slot && decide (p.2 ∈ alive)))).map Prod.fst)
  stale.foldl
    (fun cs stub => { cs with single_task_targets := eraseA cs.single_task_targets stub })
    cs

/-- `is_single_task_bound_to_other_module`. -/
def is_single_task_bound_to_other_module (cs : CoreState) (task : Task)
    (caller : ModuleInfo) : Bool :=
  if task.task_type ≠ TaskType.Single then false
  else
    match lookupA cs.single_task_targets task.stub with
    | none => false
    | some target_key => decide (¬ target_key = module_key caller)

/-- Result of `refresh_internal`. -/
structure RefreshOut where
  first_err : Errno
  cs : CoreState
  w : World
  events : List CallbackEvent
  deriving Repr

/-- The inner `for task_stub in &task_list` loop of `refresh_internal`:
look the task up, skip bound-elsewhere Single tasks, skip tasks whose
cached callee resolution is missing, record (without stopping) a cached
resolution error as the first error, check the caller match, and apply;
an `Err` from `apply_task_for_module` updates `first_err` only if it is
the first and the loop continues. -/
def refreshTasksForModule (env : RefreshEnv)
    (callee_cache : List (Nat × Except Errno CalleeResolve)) (module : ModuleInfo) :
    CoreState → World → Errno → List CallbackEvent → List Nat →
      CoreState × World × Errno × List CallbackEvent
  | cs, w, first_err, events, [] => (cs, w, first_err, events)
  | cs, w, first_err, events, task_stub :: rest =>
    match lookupA cs.tasks task_stub with
    | none => refreshTasksForModule env callee_cache module cs w first_err events rest
    | some task =>
      if is_single_task_bound_to_other_module cs task module then
        refreshTasksForModule env callee_cache module cs w first_err events rest
      else
        match lookupA callee_cache task_stub with
        | none => refreshTasksForModule env callee_cache module cs w first_err events rest
        | some (.error er) =>
          let first_err := if first_err = .Ok then er else first_err
          refreshTasksForModule env callee_cache module cs w first_err events rest
        | some (.ok callee) =>
          if env.taskMatchCaller task module = false then
            refreshTasksForModule env callee_cache module cs w first_err events rest
          else
            let r := apply_task_for_module env cs w task module callee
            let first_err := match r.result with
              | .error er => if first_err = .Ok then er else first_err
              | .ok _ => first_err
            refreshTasksForModule env callee_cache module r.cs r.w first_err
              (events ++ r.events) rest

/-- The outer `for module in &modules` loop of `refresh_internal`:
ignored modules and (in only-new mode) already-known modules are skipped;
every other module gets the full task loop regardless of errors. -/
def refreshModulesLoop (env : RefreshEnv)
    (callee_cache : List (Nat × Except Errno CalleeResolve))
    (only_new : Bool) (task_list : List Nat) :
    CoreState → World → Errno → List CallbackEvent → List ModuleInfo →
      CoreState × World × Errno × List CallbackEvent
  | cs, w, first_err, events, [] => (cs, w, first_err, events)
  | cs, w, first_err, events, module :: rest =>
    if env.shouldIgnore module cs.ignore_callers then
      refreshModulesLoop env callee_cache only_new task_list cs w first_err events rest
    else if only_new = true ∧ module_key module ∈ cs.known_modules then
      refreshModulesLoop env callee_cache only_new task_list cs w first_err events rest
    else
      let r := refreshTasksForModule env callee_cache module cs w first_err events task_list
      refreshModulesLoop env callee_cache only_new task_list r.1 r.2.1 r.2.2.1 r.2.2.2 rest

/-- `refresh_internal`: collect retired hubs, enumerate modules, prune
dead slots and single-task bindings, build the callee cache, run the
module×task double loop, adopt the new known-module set. (The CFI
slow-path patch status is only logged; per-module CFI state retention is
bookkeeping inside the CFI oracle.) -/
def refresh_internal (env : RefreshEnv) (cs : CoreState) (w : World)
    (only_new : Bool) (target_task : Option Nat) : RefreshOut :=
  let w := collect_retired_w false w
  let modules := env.modules
  let module_keys := modules.map module_key
  let pruned := prune_dead_slots cs w module_keys
  let cs := prune_dead_single_task_targets pruned.1 module_keys
  let w := pruned.2
  let task_list := match target_task with
    | some stub => [stub]
    | none => cs.task_order
  let callee_cache := task_list.foldl (fun acc stub =>
      match lookupA cs.tasks stub with
      | none => acc
      | some task => insertA acc stub (env.resolveCallee task)) []
  let r := refreshModulesLoop env callee_cache only_new task_list cs w .Ok [] modules
  ⟨r.2.2.1, { r.1 with known_modules := module_keys }, r.2.1, r.2.2.2⟩

/-! ### `add_task` and the hook entries (`task_ops.rs`,
`entry_hook.rs`) -/

/-- `add_task` (`src/runtime/lifecycle/task_ops.rs`): require
successful init, recover fork context, allocate the stub (saturating
increment, wrap guard), register the task in `tasks` and `task_order`,
apply immediately unless Manual mode, and append the audit record
(non-Single tasks record `Max` instead of the real status). Monitor
startup and the async refresh flag are thread plumbing outside this
model. -/
def add_task (env : RefreshEnv) (cs : CoreState) (w : World) (task0 : Task) :
    Option Nat × CoreState × World × List CallbackEvent :=
  if cs.init.status ≠ .Ok then (none, cs, w, [])
  else
    let ctx := ensure_process_context env.mem env.current_pid cs w
    let cs := ctx.1
    let w := ctx.2
    let stub := cs.next_stub
    let next2 := cs.next_stub + 1
    let cs := { cs with next_stub := if next2 = 0 then 1 else next2 }
    let task := { task0 with stub := stub }
    let record_lib_name := match task.task_type with
      | .Single => task.caller_path_name.getD "unknown"
      | .Partial => "PARTIAL"
      | .All => "ALL"
    let record_use_real_status := task.task_type = TaskType.Single
    let cs := { cs with
      task_order := cs.task_order ++ [stub],
      tasks := insertA cs.tasks stub task }
    let is_manual := cs.init.mode = HookMode.Manual
    let r : RefreshOut := if is_manual then ⟨.Ok, cs, w, []⟩
      else refresh_internal env cs w false (some stub)
    let status_code := if record_use_real_status then r.first_err.as_i32
      else Errno.Max.as_i32
    let cs := add_hook_record r.cs (r.w.now * 1000) status_code record_lib_name
      task.sym_name task.new_func stub
    (some stub, cs, r.w, r.events)

/-- `hook_single` (`src/runtime/lifecycle/entry_hook.rs`): argument
checks, then `add_task` with a Single task. -/
def hook_single (env : RefreshEnv) (cs : CoreState) (w : World)
    (caller_path_name : String) (callee_path_name : Option String)
    (sym_name : String) (new_func : Nat) (hooked : Bool) :
    Option Nat × CoreState × World × List CallbackEvent :=
  if caller_path_name = "" ∨ sym_name = "" ∨ new_func = 0 then (none, cs, w, [])
  else
    add_task env cs w
      { stub := 0, task_type := .Single,
        caller_path_name := some caller_path_name,
        caller_allow_filter := false,
        callee_path_name := callee_path_name,
        sym_name := sym_name, new_func := new_func, hooked := hooked }

/-! ### Concrete fixtures -/

/-- Fault-free memory oracle: syscalls succeed, stores take effect. -/
def honestMem : MemEnv :=
  { getProtErr := fun _ => none, setProtErr := fun _ _ => none,
    storeActual := fun _ v => v, storeFault := fun _ => false,
    readFault := fun _ => false }

/-- Empty world. -/
def emptyWorld : World :=
  { machine := { mem := [], prot := [] }, hubs := [], retired := [],
    nextHubPtr := 1, nextTrampo := 1000, now := 0, active_frames := 0 }

/-- A never-initialized engine (`InitInfo::default()` is `Uninit`). -/
def uninitState : CoreState :=
  { process_id := 0, init := { status := .Uninit, mode := .Automatic },
    debug := false, next_stub := 1, tasks := [], task_order := [],
    task_slots := [], slots := [], single_task_targets := [],
    ignore_callers := [], known_modules := [], recordable := true,
    records := [] }

/-- An engine initialized in Manual mode in process 42. -/
def manualReadyState : CoreState :=
  { uninitState with
    process_id := 42,
    init := { status := .Ok, mode := .Manual } }

/-- A quiet refresh environment in process 42 (no modules). -/
def idleEnv : RefreshEnv :=
  { mem := honestMem, trampoAllocOk := true,
    elfInitErr := fun _ => none, cfiStatus := fun _ => .Ok,
    findSlots := fun _ _ _ => .ok [], modules := [],
    resolveCallee := fun _ => .ok ⟨none⟩,
    taskMatchCaller := fun _ _ => true,
    shouldIgnore := fun _ _ => false, current_pid := 42 }

/-- First `hook_single` registration of replacement function 77. -/
def c1First : Option Nat × CoreState × World × List CallbackEvent :=
  hook_single idleEnv manualReadyState emptyWorld "libx.so" none "puts" 77 false

/-- Second `hook_single` registration of the same function 77. -/
def c1Second : Option Nat × CoreState × World × List CallbackEvent :=
  hook_single idleEnv c1First.2.1 c1First.2.2.1 "libx.so" none "puts" 77 false

/-- A hub that already chains a proxy node for function 77. -/
def c1Hub : Hub := ⟨100, 200, [⟨77, 1, true⟩]⟩

/-! ### C4 -/

/-- An engine initialized in Automatic mode in process 42. -/
def autoReadyState : CoreState :=
  { manualReadyState with
    init := { status := .Ok, mode := .Automatic } }

/-- Module fixture for C4. -/
def c4Module : ModuleInfo := ⟨"libc4.so", 4096, 1, 1⟩

/-- A Single task hooking `open` with replacement 77. -/
def c4Task : Task :=
  ⟨9, .Single, some "libc4.so", false, none, "open", 77, false⟩

/-- Environment where the symbol resolves to slots 200 and 300 and the
protection query faults on slot 200 only. -/
def c4Env : RefreshEnv :=
  { idleEnv with
    mem := { honestMem with
      getProtErr := fun a => if a = 200 then some Errno.Invalid else none },
    findSlots := fun _ _ _ => .ok [200, 300],
    modules := [c4Module] }

/-- The C4 state with task 9 registered. -/
def c4StateReg : CoreState :=
  { autoReadyState with
    tasks := [(9, c4Task)], task_order := [9] }

/-- Callee cache entry for task 9 (no callee filter). -/
def c4Cache : List (Nat × Except Errno CalleeResolve) := [(9, .ok ⟨none⟩)]

/-- The failing apply call of the C4 scenario. -/
def c4Apply : ApplyOut :=
  apply_task_for_module c4Env c4StateReg emptyWorld c4Task c4Module ⟨none⟩

/-! ### C2: the slot/hub ownership invariant -/

/-- Fault-free memory oracle predicate: both syscalls succeed, stores
land exactly, reads do not trip the guard. -/
def honestEnv (env : MemEnv) : Prop :=
  (∀ a, env.getProtErr a = none) ∧ (∀ a p, env.setProtErr a p = none) ∧
  (∀ a v, env.storeActual a v = v) ∧ (∀ a, env.storeFault a = false) ∧
  (∀ a, env.readFault a = false)

/-- The replacement function a chain stub stands for. -/
def chainFunc (tasks : List (Nat × Task)) (s : Nat) : Nat :=
  ((lookupA tasks s).map Task.new_func).getD 0

/-- How many chain stubs of this slot map to replacement `f`. -/
def countChain (tasks : List (Nat × Task)) (chain : List Nat) (f : Nat) : Nat :=
  (chain.filter (fun s => decide (chainFunc tasks s = f))).length

/-- Total ref_count the hub's nodes hold for replacement `f`. -/
def refTotal (nodes : List ProxyNode) (f : Nat) : Nat :=
  ((nodes.filter (fun n => decide (n.func = f))).map ProxyNode.ref_count).sum

/-- Node sanity: enabled nodes hold a positive ref_count, disabled nodes
hold zero (the states `add_proxy`/`del_proxy` can produce). -/
def nodesWF (nodes : List ProxyNode) : Prop :=
  ∀ n ∈ nodes, (n.enabled = true → 1 ≤ n.ref_count) ∧
    (n.enabled = false → n.ref_count = 0)

/-- The counting invariant between a slot's task chain and its hub's
proxy chain: each replacement's ref_count total equals the number of
chain stubs carrying it. -/
def slotHubCount (tasks : List (Nat × Task)) (chain : List Nat)
    (nodes : List ProxyNode) : Prop :=
  ∀ f, countChain tasks chain f = refTotal nodes f

/-- Fixtures for the C2 witness: a slot owned by two tasks (stubs 1 and
2 with replacements 77 and 88), its hub chaining both proxies. -/
def c2Task : Task := ⟨0, .All, none, false, none, "write", 77, false⟩

/-- Slot key fixture. -/
def c2Key : SlotKey := ⟨"libx.so", 4096, 1, 1, 600⟩

/-- Slot entry fixture: orig_func 42, owned by stubs 1 and 2, hub 7. -/
def c2Slot : SlotEntry := ⟨42, [1, 2], 7⟩

/-- Hub fixture: trampoline 1000, two enabled proxies. -/
def c2Hub : Hub := ⟨42, 1000, [⟨77, 1, true⟩, ⟨88, 1, true⟩]⟩

/-- Task with replacement 77 under stub 1. -/
def c2TaskA : Task := ⟨1, .All, none, false, none, "write", 77, false⟩

/-- Task with replacement 88 under stub 2. -/
def c2TaskB : Task := ⟨2, .All, none, false, none, "write", 88, false⟩

/-- Engine state fixture for the C2 unhook scenario. -/
def c2State : CoreState :=
  { autoReadyState with
    tasks := [(1, c2TaskA), (2, c2TaskB)], task_order := [1, 2],
    task_slots := [(1, [c2Key]), (2, [c2Key])], slots := [(c2Key, c2Slot)] }

/-- World fixture holding hub 7. -/
def c2World : World := { emptyWorld with hubs := [(7, c2Hub)] }

/-! ### Theorems -/

theorem lookupA_insertA_self {κ α : Type} [DecidableEq κ]
    (l : List (κ × α)) (k : κ) (v : α) : lookupA (insertA l k v) k = some v := by
  induction l with
  | nil => simp [insertA, lookupA]
  | cons p rest ih =>
    by_cases h : p.1 = k
    · simp [insertA, lookupA, h]
    · simp [insertA, lookupA, h, ih]

theorem lookupA_insertA_ne {κ α : Type} [DecidableEq κ]
    (l : List (κ × α)) (k k' : κ) (v : α) (h : k ≠ k') :
    lookupA (insertA l k v) k' = lookupA l k' := by
  induction l with
  | nil => simp [insertA, lookupA, h]
  | cons p rest ih =>
    by_cases hp : p.1 = k
    · rw [show insertA (p :: rest) k v = (k, v) :: rest by simp [insertA, hp]]
      simp only [lookupA, if_neg h, hp]
    · simp only [insertA, if_neg hp, lookupA]
      rw [ih]

theorem lookupA_eq_none_of_not_mem {κ α : Type} [DecidableEq κ]
    (l : List (κ × α)) (k : κ) (h : k ∉ l.map Prod.fst) : lookupA l k = none := by
  induction l with
  | nil => rfl
  | cons p rest ih =>
    simp only [List.map_cons, List.mem_cons, not_or] at h
    simp only [lookupA, if_neg (fun (he : p.1 = k) => h.1 he.symm)]
    exact ih h.2

theorem mem_keys_eraseA {κ α : Type} [DecidableEq κ]
    (l : List (κ × α)) (k k' : κ) (h : k' ∈ (eraseA l k).map Prod.fst) :
    k' ∈ l.map Prod.fst := by
  induction l with
  | nil => simpa [eraseA] using h
  | cons p rest ih =>
    by_cases hp : p.1 = k
    · simp only [eraseA, if_pos hp] at h
      exact List.mem_cons_of_mem _ h
    · simp only [eraseA, if_neg hp, List.map_cons, List.mem_cons] at h
      rcases h with h | h
      · exact List.mem_cons.mpr (Or.inl h)
      · exact List.mem_cons_of_mem _ (ih h)

theorem keys_eraseA_nodup {κ α : Type} [DecidableEq κ]
    (l : List (κ × α)) (k : κ) (h : (l.map Prod.fst).Nodup) :
    ((eraseA l k).map Prod.fst).Nodup := by
  induction l with
  | nil => simpa [eraseA] using h
  | cons p rest ih =>
    simp only [List.map_cons, List.nodup_cons] at h
    by_cases hp : p.1 = k
    · simpa [eraseA, hp] using h.2
    · simp only [eraseA, if_neg hp, List.map_cons, List.nodup_cons]
      exact ⟨fun hm => h.1 (mem_keys_eraseA rest k p.1 hm), ih h.2⟩

theorem not_mem_keys_eraseA_self {κ α : Type} [DecidableEq κ]
    (l : List (κ × α)) (k : κ) (h : (l.map Prod.fst).Nodup) :
    k ∉ (eraseA l k).map Prod.fst := by
  induction l with
  | nil => simp [eraseA]
  | cons p rest ih =>
    simp only [List.map_cons, List.nodup_cons] at h
    by_cases hp : p.1 = k
    · subst hp
      simpa [eraseA] using h.1
    · simp only [eraseA, if_neg hp, List.map_cons, List.mem_cons, not_or]
      exact ⟨fun he => hp he.symm, ih h.2⟩

theorem lookupA_eraseA_self {κ α : Type} [DecidableEq κ]
    (l : List (κ × α)) (k : κ) (h : (l.map Prod.fst).Nodup) :
    lookupA (eraseA l k) k = none :=
  lookupA_eq_none_of_not_mem _ _ (not_mem_keys_eraseA_self l k h)

theorem lookupA_eraseA_ne {κ α : Type} [DecidableEq κ]
    (l : List (κ × α)) (k k' : κ) (h : k ≠ k') :
    lookupA (eraseA l k) k' = lookupA l k' := by
  induction l with
  | nil => simp [eraseA]
  | cons p rest ih =>
    by_cases hp : p.1 = k
    · simp only [eraseA, if_pos hp, lookupA]
      rw [if_neg (fun he : p.1 = k' => h (hp ▸ he))]
    · simp only [eraseA, if_neg hp, lookupA]
      rw [ih]

theorem mem_keys_insertA {κ α : Type} [DecidableEq κ]
    (l : List (κ × α)) (k k' : κ) (v : α) (h : k' ∈ (insertA l k v).map Prod.fst) :
    k' = k ∨ k' ∈ l.map Prod.fst := by
  induction l with
  | nil => simpa [insertA] using h
  | cons p rest ih =>
    by_cases hp : p.1 = k
    · simp only [insertA, if_pos hp, List.map_cons, List.mem_cons] at h
      rcases h with h | h
      · exact Or.inl h
      · exact Or.inr (List.mem_cons_of_mem _ h)
    · simp only [insertA, if_neg hp, List.map_cons, List.mem_cons] at h
      rcases h with h | h
      · exact Or.inr (List.mem_cons.mpr (Or.inl h))
      · rcases ih h with h | h
        · exact Or.inl h
        · exact Or.inr (List.mem_cons_of_mem _ h)

theorem keys_insertA_nodup {κ α : Type} [DecidableEq κ]
    (l : List (κ × α)) (k : κ) (v : α) (h : (l.map Prod.fst).Nodup) :
    ((insertA l k v).map Prod.fst).Nodup := by
  induction l with
  | nil => simp [insertA]
  | cons p rest ih =>
    simp only [List.map_cons, List.nodup_cons] at h
    by_cases hp : p.1 = k
    · rw [show insertA (p :: rest) k v = (k, v) :: rest by simp [insertA, hp]]
      simp only [List.map_cons, List.nodup_cons]
      exact ⟨hp ▸ h.1, h.2⟩
    · simp only [insertA, if_neg hp, List.map_cons, List.nodup_cons]
      refine ⟨fun hm => ?_, ih h.2⟩
      rcases mem_keys_insertA rest k p.1 v hm with he | hm
      · exact hp he
      · exact h.1 hm

theorem swapRemove_length (l : List RetiredHub) (i : Nat) (hne : l ≠ []) :
    (swapRemove l i).length = l.length - 1 := by
  unfold swapRemove
  cases hml : l.getLast? with
  | none => exact absurd (List.getLast?_eq_none.mp hml) hne
  | some last => simp [List.length_dropLast, List.length_set]

theorem mem_swapRemove {l : List RetiredHub} {i : Nat} {x : RetiredHub}
    (h : x ∈ swapRemove l i) : x ∈ l := by
  unfold swapRemove at h
  cases hml : l.getLast? with
  | none => rw [hml] at h; exact h
  | some last =>
    rw [hml] at h
    rcases List.mem_or_eq_of_mem_set (List.mem_of_mem_dropLast h) with h2 | h2
    · exact h2
    · subst h2
      rcases List.getLast?_eq_some_iff.mp hml with ⟨ys, hys⟩
      rw [hys]
      exact List.mem_append_right _ (List.mem_singleton_self _)

theorem take_swapRemove (l : List RetiredHub) (i : Nat) (h : i < l.length) :
    (swapRemove l i).take i = l.take i := by
  unfold swapRemove
  cases hml : l.getLast? with
  | none => rfl
  | some last =>
    show ((l.set i last).dropLast).take i = l.take i
    rw [List.dropLast_eq_take, List.length_set, List.take_take]
    have hmin : min i (l.length - 1) = i := by omega
    rw [hmin, List.set_take]
    exact List.set_eq_of_length_le (by rw [List.length_take]; omega)

theorem collectRetiredLoop_spec (force : Bool) (now active : Nat) :
    ∀ (n : Nat) (retired : List RetiredHub) (idx : Nat) (ready : List Nat),
      retired.length - idx ≤ n →
      (∀ p ∈ (collectRetiredLoop force now active retired idx ready).2,
          p ∈ ready ∨ ∃ e ∈ retired, e.hub_ptr = p ∧ hubExpired force now active e) ∧
      ((∀ e ∈ retired.take idx, ¬ hubExpired force now active e) →
        ∀ e ∈ (collectRetiredLoop force now active retired idx ready).1,
          e ∈ retired ∧ ¬ hubExpired force now active e) := by
  intro n
  induction n with
  | zero =>
    intro retired idx ready hle
    have hnot : ¬ idx < retired.length := by omega
    rw [collectRetiredLoop, dif_neg hnot]
    constructor
    · intro p hp
      exact Or.inl hp
    · intro hpre e he
      refine ⟨he, hpre e ?_⟩
      rwa [List.take_of_length_le (by omega)]
  | succ n ih =>
    intro retired idx ready hle
    by_cases hlt : idx < retired.length
    · rw [collectRetiredLoop, dif_pos hlt]
      set item := retired.get ⟨idx, hlt⟩ with hitem
      by_cases hexp : (force = true) ∨ (active = 0 ∧ HUB_DESTROY_DELAY_SEC ≤ now - item.ts)
      · rw [if_pos hexp]
        have hne : retired ≠ [] := by
          intro he
          rw [he] at hlt
          simp at hlt
        have hm : (swapRemove retired idx).length - idx ≤ n := by
          rw [swapRemove_length retired idx hne]
          omega
        have spec := ih (swapRemove retired idx) idx (ready ++ [item.hub_ptr]) hm
        constructor
        · intro p hp
          rcases spec.1 p hp with hp2 | ⟨e, he, hep, hee⟩
          · rcases List.mem_append.mp hp2 with hp3 | hp3
            · exact Or.inl hp3
            · refine Or.inr ⟨item, List.get_mem retired idx hlt, ?_, hexp⟩
              exact (List.mem_singleton.mp hp3).symm
          · exact Or.inr ⟨e, mem_swapRemove he, hep, hee⟩
        · intro hpre e he
          have hpre2 : ∀ e ∈ (swapRemove retired idx).take idx,
              ¬ hubExpired force now active e := by
            rw [take_swapRemove retired idx hlt]
            exact hpre
          have := spec.2 hpre2 e he
          exact ⟨mem_swapRemove this.1, this.2⟩
      · rw [if_neg hexp]
        have spec := ih retired (idx + 1) ready (by omega)
        refine ⟨spec.1, ?_⟩
        intro hpre e he
        have hpre2 : ∀ x ∈ retired.take (idx + 1), ¬ hubExpired force now active x := by
          intro x hx
          rw [List.take_succ] at hx
          rcases List.mem_append.mp hx with hx | hx
          · exact hpre x hx
          · have hidx : retired[idx]? = some item := by
              rw [List.getElem?_eq_getElem hlt, hitem, List.get_eq_getElem]
            rw [hidx] at hx
            simp only [Option.toList_some, List.mem_singleton] at hx
            rw [hx]
            exact hexp
        exact spec.2 hpre2 e he
    · rw [collectRetiredLoop, dif_neg hlt]
      constructor
      · intro p hp
        exact Or.inl hp
      · intro hpre e he
        refine ⟨he, hpre e ?_⟩
        rwa [List.take_of_length_le (by omega)]

/-- C9: an entry destroyed by a `collect_retired` pass (an element of the
`ready` output of its scan loop started at `idx = 0`) satisfies the expiry
rule — reclamation was forced, or the active-frame counter read zero and at
least `HUB_DESTROY_DELAY_SEC = 10` seconds of wall clock have passed since
the entry's retirement timestamp; entries not yet expired all survive in
the remaining list. -/
theorem C9_retired_hub_destroy_rule (force : Bool) (now active : Nat)
    (retired : List RetiredHub) :
    (∀ p ∈ (collectRetiredLoop force now active retired 0 []).2,
        ∃ e ∈ retired, e.hub_ptr = p ∧
          (force = true ∨ (active = 0 ∧ 10 ≤ now - e.ts))) ∧
    (∀ e ∈ (collectRetiredLoop force now active retired 0 []).1,
        e ∈ retired ∧ ¬ (force = true ∨ (active = 0 ∧ 10 ≤ now - e.ts))) := by
  have spec := collectRetiredLoop_spec force now active retired.length retired 0 []
    (by omega)
  constructor
  · intro p hp
    rcases spec.1 p hp with hp2 | hp2
    · simp at hp2
    · exact hp2
  · intro e he
    exact spec.2 (by intro x hx; simp at hx) e he

/-- Witness for C9 on concrete data: with `force = false`, `now = 25`,
`active = 0` and two entries retired at times 5 and 20, the pass destroys
the first entry (25 − 5 ≥ 10) and keeps the second (25 − 20 < 10). -/
theorem C9_retired_hub_destroy_rule_witness :
    (∃ e ∈ [RetiredHub.mk 77 5, RetiredHub.mk 88 20], e.hub_ptr = 77 ∧
      (false = true ∨ (0 = 0 ∧ 10 ≤ 25 - e.ts))) ∧
    (RetiredHub.mk 88 20 ∈ [RetiredHub.mk 77 5, RetiredHub.mk 88 20] ∧
      ¬ (false = true ∨ ((0 : Nat) = 0 ∧ 10 ≤ 25 - (20 : Nat)))) := by
  have h1 := (C9_retired_hub_destroy_rule false 25 0
    [RetiredHub.mk 77 5, RetiredHub.mk 88 20]).1 77
  have h2 := (C9_retired_hub_destroy_rule false 25 0
    [RetiredHub.mk 77 5, RetiredHub.mk 88 20]).2 (RetiredHub.mk 88 20)
  have hloop : collectRetiredLoop false 25 0
      [RetiredHub.mk 77 5, RetiredHub.mk 88 20] 0 []
      = ([RetiredHub.mk 88 20], [77]) := by
    rw [collectRetiredLoop]
    norm_num [swapRemove, HUB_DESTROY_DELAY_SEC]
    rw [collectRetiredLoop]
    norm_num [HUB_DESTROY_DELAY_SEC]
    rw [collectRetiredLoop]
    norm_num
  rw [hloop] at h1 h2
  exact ⟨h1 (by simp), by
    have := h2 (by simp)
    exact ⟨this.1, this.2⟩⟩

theorem pruneRev_spec (sp : Nat) :
    ∀ l : List HubFrame, ∃ d, l = d ++ (pruneRev l sp).1 ∧
      (pruneRev l sp).2 = d.length ∧ ∀ f ∈ d, f.stack_sp ≤ sp := by
  intro l
  induction l with
  | nil => exact ⟨[], by simp [pruneRev]⟩
  | cons f rest ih =>
    by_cases hf : f.stack_sp ≤ sp
    · rcases ih with ⟨d, hd, hn, hall⟩
      refine ⟨f :: d, ?_, ?_, ?_⟩
      · simp [pruneRev, hf, ← hd]
      · simp [pruneRev, hf, hn]
      · intro x hx
        rcases List.mem_cons.mp hx with hx | hx
        · rw [hx]; exact hf
        · exact hall x hx
    · exact ⟨[], by simp [pruneRev, hf]⟩

theorem pruneStale_spec (stack0 : List HubFrame) (sp : Nat) :
    ∃ dropped, stack0 = (pruneStale stack0 sp).1 ++ dropped ∧
      (pruneStale stack0 sp).2 = dropped.length ∧
      ∀ f ∈ dropped, f.stack_sp ≤ sp := by
  rcases pruneRev_spec sp stack0.reverse with ⟨d, hd, hn, hall⟩
  refine ⟨d.reverse, ?_, ?_, ?_⟩
  · have := congrArg List.reverse hd
    simpa [pruneStale] using this
  · simpa [pruneStale] using hn
  · intro f hf
    exact hall f (List.mem_reverse.mp hf)

/-- C5: `hub_push_stack` returns `hub.orig_addr` without pushing when, on
the stale-pruned stack, some frame already carries this hub's id (cycle),
or the chain-head snapshot has no enabled node, or the fixed-capacity
stack is full; otherwise it returns the first enabled node's function,
pushes exactly one `HubFrame` and increments the global active-frame
counter. (The stale frames dropped first are exactly those whose captured
SP satisfies `stack_sp <= current_sp`: see the `pruneStale_spec` facts
restated in the first conjunct. The "otherwise" case carries the source's
guard `n.func ≠ hub.orig_addr`: a chosen proxy address that happens to
equal `orig_addr` is indistinguishable from the empty-chain fallback.) -/
theorem C5_push_callback_dispatch (hub : Hub) (hub_ptr return_addr current_sp : Nat)
    (stack0 : List HubFrame) :
    (∃ dropped, stack0 = (pruneStale stack0 current_sp).1 ++ dropped ∧
        (pruneStale stack0 current_sp).2 = dropped.length ∧
        ∀ f ∈ dropped, f.stack_sp ≤ current_sp) ∧
    ((∃ f ∈ (pruneStale stack0 current_sp).1, f.hub_id = hub_ptr) →
        hub_push_stack hub hub_ptr return_addr current_sp stack0 =
          ⟨hub.orig_addr, (pruneStale stack0 current_sp).1,
            (pruneStale stack0 current_sp).2, false⟩) ∧
    ((∀ f ∈ (pruneStale stack0 current_sp).1, f.hub_id ≠ hub_ptr) →
      (hub.nodes.find? (·.enabled) = none →
        hub_push_stack hub hub_ptr return_addr current_sp stack0 =
          ⟨hub.orig_addr, (pruneStale stack0 current_sp).1,
            (pruneStale stack0 current_sp).2, false⟩) ∧
      (∀ n, hub.nodes.find? (·.enabled) = some n → n.func ≠ hub.orig_addr →
        (HUB_STACK_CAP ≤ ((pruneStale stack0 current_sp).1).length →
          hub_push_stack hub hub_ptr return_addr current_sp stack0 =
            ⟨hub.orig_addr, (pruneStale stack0 current_sp).1,
              (pruneStale stack0 current_sp).2, false⟩) ∧
        (((pruneStale stack0 current_sp).1).length < HUB_STACK_CAP →
          hub_push_stack hub hub_ptr return_addr current_sp stack0 =
            ⟨n.func,
              (pruneStale stack0 current_sp).1 ++
                [⟨hub_ptr, hub.nodes, hub.orig_addr, n.func, return_addr, current_sp⟩],
              (pruneStale stack0 current_sp).2, true⟩ ∧
          ∀ c : Nat,
            activeAfterPush c
              (hub_push_stack hub hub_ptr return_addr current_sp stack0) =
            (c - (pruneStale stack0 current_sp).2) + 1))) := by
  refine ⟨pruneStale_spec stack0 current_sp, ?_, ?_⟩
  · intro hcycle
    have hany : ((pruneStale stack0 current_sp).1).any
        (fun f => f.hub_id = hub_ptr) = true := by
      rcases hcycle with ⟨f, hf, hid⟩
      exact List.any_eq_true.mpr ⟨f, hf, by simp [hid]⟩
    simp only [hub_push_stack, hany]
    rfl
  · intro hnocycle
    have hany : ((pruneStale stack0 current_sp).1).any
        (fun f => f.hub_id = hub_ptr) = false := by
      rw [List.any_eq_false]
      intro f hf
      simpa using hnocycle f hf
    constructor
    · intro hfind
      simp only [hub_push_stack, hany, hfind]
      rfl
    · intro n hfind hne
      constructor
      · intro hfull
        simp only [hub_push_stack, hany, Bool.false_eq_true, if_false, hfind]
        rw [if_neg hne, if_pos hfull]
      · intro hroom
        have hfit : ¬ HUB_STACK_CAP ≤ ((pruneStale stack0 current_sp).1).length := by
          omega
        constructor
        · simp only [hub_push_stack, hany, Bool.false_eq_true, if_false, hfind]
          rw [if_neg hne, if_neg hfit]
        · intro c
          simp only [hub_push_stack, hany, Bool.false_eq_true, if_false, hfind]
          rw [if_neg hne, if_neg hfit]
          simp [activeAfterPush]

/-- Witness for C5 at concrete data: a hub with the single enabled node
`{func := 5}` and `orig_addr = 9`, empty thread stack, no cycle: the call
returns 5 and pushes one frame; the counter goes from 0 to 1. -/
theorem C5_push_callback_dispatch_witness :
    hub_push_stack (Hub.mk 9 40 [ProxyNode.mk 5 1 true]) 77 1234 100 [] =
      ⟨5, [⟨77, [ProxyNode.mk 5 1 true], 9, 5, 1234, 100⟩], 0, true⟩ ∧
    activeAfterPush 0 (hub_push_stack (Hub.mk 9 40 [ProxyNode.mk 5 1 true]) 77 1234 100 []) = 1 := by
  have h := (C5_push_callback_dispatch (Hub.mk 9 40 [ProxyNode.mk 5 1 true]) 77 1234 100 []).2.2
    (by intro f hf; simp [pruneStale, pruneRev] at hf)
  have h2 := (h.2 (ProxyNode.mk 5 1 true) (by decide) (by decide)).2
    (by simp [pruneStale, pruneRev, HUB_STACK_CAP])
  refine ⟨?_, ?_⟩
  · have := h2.1
    simpa [pruneStale, pruneRev] using this
  · have := h2.2 0
    simpa [pruneStale, pruneRev] using this

theorem gnuChainWalk_ok (e : GnuHashElf) (symbol : List Nat) (hash : Nat) :
    ∀ (words : List Nat) (i j : Nat),
      gnuChainWalk e symbol hash i words = .ok j →
      i ≤ j ∧ j - i < words.length ∧
      (∃ w, words[j - i]? = some w ∧ (hash ||| 1) = (w ||| 1)) ∧
      e.sym_name j = some symbol ∧
      (∀ k, k < j - i → ∃ w, words[k]? = some w ∧ w % 2 = 0) := by
  intro words
  induction words with
  | nil =>
    intro i j h
    simp [gnuChainWalk] at h
  | cons w rest ih =>
    intro i j h
    rw [gnuChainWalk] at h
    by_cases hm : (match e.sym_name i with
        | some name => ((hash ||| 1) == (w ||| 1)) && (name == symbol)
        | none => false) = true
    · rw [if_pos hm] at h
      have hj : j = i := by
        have := Except.ok.inj h
        omega
      subst hj
      cases hname : e.sym_name j with
      | none => rw [hname] at hm; simp at hm
      | some name =>
        rw [hname] at hm
        simp only [Bool.and_eq_true, beq_iff_eq] at hm
        refine ⟨le_refl j, by simp, ⟨w, by simp, hm.1⟩, ?_, ?_⟩
        · exact congrArg some hm.2
        · intro k hk
          omega
    · rw [if_neg hm] at h
      by_cases hlow : w % 2 = 1
      · rw [if_pos hlow] at h
        exact absurd h (by simp)
      · rw [if_neg hlow] at h
        rcases ih (i + 1) j h with ⟨hle, hlen, ⟨w2, hw2, hh2⟩, hname, hprev⟩
        have hij : i < j := by omega
        refine ⟨le_of_lt hij, by simp; omega, ⟨w2, ?_, hh2⟩, hname, ?_⟩
        · have : j - i = (j - (i + 1)) + 1 := by omega
          rw [this]
          simpa using hw2
        · intro k hk
          cases k with
          | zero => exact ⟨w, by simp, by omega⟩
          | succ k2 =>
            rcases hprev k2 (by omega) with ⟨w3, hw3, hl3⟩
            exact ⟨w3, by simpa using hw3, hl3⟩

theorem gnu_hash_lookup_undef_aux_ok (e : GnuHashElf) (symbol : List Nat) :
    ∀ (fuel i j : Nat),
      gnu_hash_lookup_undef_aux e symbol i fuel = .ok j →
      i ≤ j ∧ j < e.symoffset ∧ e.sym_name j = some symbol ∧
      ∀ k, i ≤ k → k < j → e.sym_name k ≠ some symbol := by
  intro fuel
  induction fuel with
  | zero =>
    intro i j h
    simp [gnu_hash_lookup_undef_aux] at h
  | succ fuel ih =>
    intro i j h
    rw [gnu_hash_lookup_undef_aux] at h
    by_cases hi : i < e.symoffset
    · rw [if_pos hi] at h
      by_cases hname : e.sym_name i == some symbol
      · rw [if_pos hname] at h
        have hj : j = i := (Except.ok.inj h).symm
        subst hj
        exact ⟨le_refl j, hi, beq_iff_eq.mp hname, fun k hk1 hk2 => by omega⟩
      · rw [if_neg hname] at h
        rcases ih (i + 1) j h with ⟨hle, hj, hn, hmin⟩
        refine ⟨by omega, hj, hn, ?_⟩
        intro k hk1 hk2
        by_cases hki : k = i
        · subst hki
          exact fun he => hname (beq_iff_eq.mpr he)
        · exact hmin k (by omega) hk2
    · rw [if_neg hi] at h
      exact absurd h (by simp)

theorem gnu_hash_lookup_undef_aux_err (e : GnuHashElf) (symbol : List Nat) :
    ∀ (fuel i : Nat) (x : Errno),
      gnu_hash_lookup_undef_aux e symbol i fuel = .error x → x = .NotFound := by
  intro fuel
  induction fuel with
  | zero =>
    intro i x h
    rw [gnu_hash_lookup_undef_aux] at h
    exact (Except.error.inj h).symm
  | succ fuel ih =>
    intro i x h
    rw [gnu_hash_lookup_undef_aux] at h
    by_cases hi : i < e.symoffset
    · rw [if_pos hi] at h
      by_cases hname : e.sym_name i == some symbol
      · rw [if_pos hname] at h
        exact absurd h (by simp)
      · rw [if_neg hname] at h
        exact ih (i + 1) x h
    · rw [if_neg hi] at h
      exact (Except.error.inj h).symm

/-- C6: the GNU-hash lookup path. (1) The hash starts at 5381 and folds
`h = h + ((h << 5) + ch)` per name byte (`u32` wrap explicit). (2) When
either bloom bit `h % 64` or `(h >>> shift) % 64` is missing from
`bloom[(h / 64) % bloom_sz]`, the defined-symbol lookup rejects with
`NotFound`. (3) A defined-symbol hit `i` lies in the chain started at the
bucket slot, its stored chain word agrees with the hash up to the low bit,
its name equals the query byte-for-byte, and every chain word walked before
it had the low (termination) bit clear. (4) When the defined path misses,
the composite lookup is the linear scan of indices below `symoffset`.
(5) A scan hit is the first matching index below `symoffset`. (6) Any miss
of the composite lookup yields `NotFound`. -/
theorem C6_gnu_hash_lookup_spec :
    (elf_gnu_hash [] = 5381 ∧
      ∀ (name : List Nat) (c : Nat),
        elf_gnu_hash (name ++ [c]) =
          (elf_gnu_hash name + (elf_gnu_hash name * 32 + c) % 2 ^ 32) % 2 ^ 32) ∧
    (∀ (e : GnuHashElf) (s : List Nat),
      e.bloom.getD ((elf_gnu_hash s / 64) % e.bloom.length) 0 &&&
          ((2 ^ (elf_gnu_hash s % 64)) |||
            (2 ^ ((elf_gnu_hash s >>> e.bloom_shift) % 64))) ≠
        ((2 ^ (elf_gnu_hash s % 64)) |||
          (2 ^ ((elf_gnu_hash s >>> e.bloom_shift) % 64))) →
      gnu_hash_lookup_def e s = .error .NotFound) ∧
    (∀ (e : GnuHashElf) (s : List Nat) (i : Nat),
      gnu_hash_lookup_def e s = .ok i →
      e.symoffset ≤ e.bucket.getD (elf_gnu_hash s % e.bucket.length) 0 ∧
      e.bucket.getD (elf_gnu_hash s % e.bucket.length) 0 ≤ i ∧
      (∃ w, e.chain[i - e.symoffset]? = some w ∧
        (elf_gnu_hash s ||| 1) = (w ||| 1)) ∧
      e.sym_name i = some s ∧
      (∀ k, e.bucket.getD (elf_gnu_hash s % e.bucket.length) 0 ≤ k → k < i →
        ∃ w, e.chain[k - e.symoffset]? = some w ∧ w % 2 = 0)) ∧
    (∀ (e : GnuHashElf) (s : List Nat) (x : Errno),
      gnu_hash_lookup_def e s = .error x →
      gnu_hash_lookup e s = gnu_hash_lookup_undef e s) ∧
    (∀ (e : GnuHashElf) (s : List Nat) (j : Nat),
      gnu_hash_lookup_undef e s = .ok j →
      j < e.symoffset ∧ e.sym_name j = some s ∧
      ∀ k, k < j → e.sym_name k ≠ some s) ∧
    (∀ (e : GnuHashElf) (s : List Nat) (x : Errno),
      gnu_hash_lookup e s = .error x → x = .NotFound) := by
  refine ⟨⟨rfl, ?_⟩, ?_, ?_, ?_, ?_, ?_⟩
  · intro name c
    simp [elf_gnu_hash, List.foldl_append]
  · intro e s hmiss
    rw [gnu_hash_lookup_def]
    by_cases hb : e.bucket.length = 0
    · rw [if_pos hb]
    · rw [if_neg hb]
      simp only
      rw [if_pos hmiss]
  · intro e s i h
    rw [gnu_hash_lookup_def] at h
    by_cases hb : e.bucket.length = 0
    · rw [if_pos hb] at h
      exact absurd h (by simp)
    · rw [if_neg hb] at h
      simp only at h
      by_cases hmiss : e.bloom.getD ((elf_gnu_hash s / 64) % e.bloom.length) 0 &&&
          ((2 ^ (elf_gnu_hash s % 64)) |||
            (2 ^ ((elf_gnu_hash s >>> e.bloom_shift) % 64))) ≠
          ((2 ^ (elf_gnu_hash s % 64)) |||
            (2 ^ ((elf_gnu_hash s >>> e.bloom_shift) % 64)))
      · rw [if_pos hmiss] at h
        exact absurd h (by simp)
      · rw [if_neg hmiss] at h
        by_cases hlow : e.bucket.getD (elf_gnu_hash s % e.bucket.length) 0 < e.symoffset
        · rw [if_pos hlow] at h
          exact absurd h (by simp)
        · rw [if_neg hlow] at h
          have hsym : e.symoffset ≤ e.bucket.getD (elf_gnu_hash s % e.bucket.length) 0 := by
            omega
          rcases gnuChainWalk_ok e s (elf_gnu_hash s) _ _ _ h with
            ⟨hle, hlen, ⟨w, hw, hhw⟩, hname, hprev⟩
          refine ⟨hsym, hle, ⟨w, ?_, hhw⟩, hname, ?_⟩
          · rw [List.getElem?_drop] at hw
            have heq : e.bucket.getD (elf_gnu_hash s % e.bucket.length) 0 - e.symoffset +
                (i - e.bucket.getD (elf_gnu_hash s % e.bucket.length) 0) =
                i - e.symoffset := by omega
            rwa [heq] at hw
          · intro k hk1 hk2
            rcases hprev (k - e.bucket.getD (elf_gnu_hash s % e.bucket.length) 0)
              (by omega) with ⟨w3, hw3, hl3⟩
            rw [List.getElem?_drop] at hw3
            have heq : e.bucket.getD (elf_gnu_hash s % e.bucket.length) 0 - e.symoffset +
                (k - e.bucket.getD (elf_gnu_hash s % e.bucket.length) 0) =
                k - e.symoffset := by omega
            rw [heq] at hw3
            exact ⟨w3, hw3, hl3⟩
  · intro e s x h
    rw [gnu_hash_lookup, h]
  · intro e s j h
    rcases gnu_hash_lookup_undef_aux_ok e s e.symoffset 0 j h with ⟨_, hj, hn, hmin⟩
    exact ⟨hj, hn, fun k hk => hmin k (Nat.zero_le k) hk⟩
  · intro e s x h
    rw [gnu_hash_lookup] at h
    cases hdef : gnu_hash_lookup_def e s with
    | ok i => rw [hdef] at h; exact absurd h (by simp)
    | error y =>
      rw [hdef] at h
      exact gnu_hash_lookup_undef_aux_err e s e.symoffset 0 x h

/-- Witness for C6 on `gnuExample`: looking up "ab" (bytes `[97, 98]`)
succeeds at symidx 1, and the facts promised by the defined-symbol branch
hold there concretely. -/
theorem C6_gnu_hash_lookup_spec_witness :
    gnu_hash_lookup_def gnuExample [97, 98] = .ok 1 ∧
    gnuExample.sym_name 1 = some [97, 98] ∧
    (∃ w, gnuExample.chain[1 - gnuExample.symoffset]? = some w ∧
      (elf_gnu_hash [97, 98] ||| 1) = (w ||| 1)) := by
  have hdef : gnu_hash_lookup_def gnuExample [97, 98] = .ok 1 := by rfl
  have h3 := C6_gnu_hash_lookup_spec.2.2.1 gnuExample [97, 98] 1 hdef
  exact ⟨hdef, h3.2.2.2.1, h3.2.2.1⟩

theorem slebLoop_error (x : Errno) :
    ∀ (bytes : List Nat) (value shift : Nat),
      slebLoop bytes value shift = .error x → x = .Format := by
  intro bytes
  induction bytes with
  | nil =>
    intro value shift h
    rw [slebLoop] at h
    exact (Except.error.inj h).symm
  | cons b rest ih =>
    intro value shift h
    rw [slebLoop] at h
    by_cases hb : b &&& 0x80 = 0
    · rw [if_pos hb] at h
      exact absurd h (by simp)
    · rw [if_neg hb] at h
      exact ih _ _ h

theorem slebNext_error (bytes : List Nat) (x : Errno)
    (h : slebNext bytes = .error x) : x = .Format := by
  rw [slebNext] at h
  cases hl : slebLoop bytes 0 0 with
  | ok v =>
    rw [hl] at h
    simp [bind, Except.bind, pure, Except.pure] at h
  | error y =>
    rw [hl] at h
    simp only [bind, Except.bind] at h
    have hy := (Except.error.inj h)
    rw [← hy]
    exact slebLoop_error y bytes 0 0 hl

/-- C8 counterexample: the APS2 stream `[1, 0, 1, 8, 0, 0, 5]` (one
relocation, initial offset 0; one group with `group_flags = 8` =
`RELOCATION_GROUP_HAS_ADDEND_FLAG` alone, i.e. a per-entry RELA addend;
then the entry's offset delta 0, `r_info` 0 and addend byte 5) decoded
with `is_use_rela = false` does NOT fail with `Format`: `next` yields the
entry and leaves the addend byte `5` unconsumed. -/
theorem C8_per_entry_addend_counterexample :
    (PackedRelocIterator.new [1, 0, 1, 8, 0, 0, 5] false).bind
        PackedRelocIterator.next =
      .ok (some (⟨0, 0⟩,
        { bytes := [5], relocation_count := 1, group_size := 1, group_flags := 8,
          group_r_offset_delta := 0, relocation_index := 1,
          relocation_group_index := 1, r_offset := 0, r_info := 0,
          r_addend := 0, is_use_rela := false })) ∧
    (PackedRelocIterator.new [1, 0, 1, 8, 0, 0, 5] false).bind
        PackedRelocIterator.next ≠ .error Errno.Format := by
  constructor
  · decide
  · decide

/-- C8 amended: in a REL stream (`is_use_rela = false`) only a
GROUP-SHARED RELA addend (group flags carrying both
`RELOCATION_GROUP_HAS_ADDEND_FLAG` and `RELOCATION_GROUPED_BY_ADDEND_FLAG`)
makes the decoder fail with `Format`; a PER-ENTRY RELA addend
(`HAS_ADDEND` without `GROUPED_BY_ADDEND`) is not rejected — the decoder
silently skips reading the addend field and yields the entry. -/
theorem C8_rel_addend_amended :
    (∀ (it : PackedRelocIterator) (v1 f : Nat) (r1 r2 : List Nat),
      it.is_use_rela = false →
      slebNext it.bytes = .ok (v1, r1) →
      slebNext r1 = .ok (f, r2) →
      f &&& RELOCATION_GROUP_HAS_ADDEND_FLAG ≠ 0 →
      f &&& RELOCATION_GROUPED_BY_ADDEND_FLAG ≠ 0 →
      it.read_group_fields = .error .Format) ∧
    (∀ (it : PackedRelocIterator) (v1 v2 : Nat) (r1 r2 : List Nat),
      it.is_use_rela = false →
      it.relocation_index < it.relocation_count →
      it.relocation_group_index ≠ it.group_size →
      it.group_flags &&& RELOCATION_GROUPED_BY_OFFSET_DELTA_FLAG = 0 →
      it.group_flags &&& RELOCATION_GROUPED_BY_INFO_FLAG = 0 →
      it.group_flags &&& RELOCATION_GROUP_HAS_ADDEND_FLAG ≠ 0 →
      it.group_flags &&& RELOCATION_GROUPED_BY_ADDEND_FLAG = 0 →
      slebNext it.bytes = .ok (v1, r1) →
      slebNext r1 = .ok (v2, r2) →
      it.next = .ok (some (⟨(it.r_offset + v1) % 2 ^ 64, v2⟩,
        { it with bytes := r2, r_offset := (it.r_offset + v1) % 2 ^ 64,
                  r_info := v2,
                  relocation_index := it.relocation_index + 1,
                  relocation_group_index := it.relocation_group_index + 1 }))) := by
  constructor
  · intro it v1 f r1 r2 hrela hs1 hs2 hhas hgrp
    rw [PackedRelocIterator.read_group_fields]
    simp only [bind, Except.bind, pure, Except.pure, hs1, hs2]
    by_cases hdelta : f &&& RELOCATION_GROUPED_BY_OFFSET_DELTA_FLAG ≠ 0
    · rw [if_pos hdelta]
      cases hs3 : slebNext r2 with
      | error y =>
        simp only [hs3, slebNext_error r2 y hs3]
      | ok p3 =>
        simp only [hs3]
        by_cases hinfo : f &&& RELOCATION_GROUPED_BY_INFO_FLAG ≠ 0
        · rw [if_pos hinfo]
          cases hs4 : slebNext p3.2 with
          | error y =>
            simp only [hs4, slebNext_error p3.2 y hs4]
          | ok p4 =>
            simp only [hs4]
            rw [if_pos ⟨hhas, hgrp⟩, if_pos hrela]
        · rw [if_neg hinfo]
          rw [if_pos ⟨hhas, hgrp⟩, if_pos hrela]
    · rw [if_neg hdelta]
      by_cases hinfo : f &&& RELOCATION_GROUPED_BY_INFO_FLAG ≠ 0
      · rw [if_pos hinfo]
        cases hs4 : slebNext r2 with
        | error y =>
          simp only [hs4, slebNext_error r2 y hs4]
        | ok p4 =>
          simp only [hs4]
          rw [if_pos ⟨hhas, hgrp⟩, if_pos hrela]
      · rw [if_neg hinfo]
        rw [if_pos ⟨hhas, hgrp⟩, if_pos hrela]
  · intro it v1 v2 r1 r2 hrela hidx hgrp hdelta hinfo hhas hnogrp hs1 hs2
    rw [PackedRelocIterator.next]
    rw [if_neg (by omega), if_neg hgrp]
    simp only [bind, Except.bind, pure, Except.pure]
    rw [if_neg (by simp [hdelta])]
    simp only [hs1]
    rw [if_pos hinfo]
    simp only [hs2]
    rw [if_neg (by simp [hrela])]

/-- Witness for C8's amended claim: for an iterator whose remaining stream
is `[1, 12]` (group size 1, group flags 12 = HAS_ADDEND | GROUPED_BY_ADDEND)
with `is_use_rela = false`, `read_group_fields` fails with `Format`. -/
theorem C8_rel_addend_amended_witness :
    PackedRelocIterator.read_group_fields
      { bytes := [1, 12], relocation_count := 1, group_size := 0,
        group_flags := 0, group_r_offset_delta := 0, relocation_index := 0,
        relocation_group_index := 0, r_offset := 0, r_info := 0,
        r_addend := 0, is_use_rela := false } = .error .Format :=
  C8_rel_addend_amended.1
    { bytes := [1, 12], relocation_count := 1, group_size := 0,
      group_flags := 0, group_r_offset_delta := 0, relocation_index := 0,
      relocation_group_index := 0, r_offset := 0, r_info := 0,
      r_addend := 0, is_use_rela := false }
    1 12 [12] [] rfl (by decide) (by decide) (by decide) (by decide)

/-- C7: slot collection. (1) A missing symbol is not an error: the slot
list is empty with `Ok`. For a relocation whose symbol index and
relocation type match (`JUMP_SLOT` for PLT entries, `GLOB_DAT`/`ABS64`
otherwise): (2a) a slot address `bias + r_offset` below the image base is
a `Format` error; (2b) with a callee filter, the slot is kept exactly when
its current value is one of the filter addresses, or — the PLT
lazy-binding exception — the entry is a PLT one, the filter has exactly
one target, and the current value lies in some `PT_LOAD` segment; without
a filter the slot is always kept. (3) A relocation for a different symbol
index leaves the slot set unchanged. -/
theorem C7_find_got_slots_filter_spec :
    (∀ (e : ElfView) (callee : Option (List Nat)),
      e.symidxResult = .error .NotFound → find_got_slots e callee = .ok []) ∧
    (∀ (e : ElfView) (slots : List Nat) (is_plt : Bool)
        (symidx r_offset r_info : Nat) (callee : Option (List Nat)),
      elf_r_sym r_info = symidx →
      (is_plt = true → elf_r_type r_info = R_GENERIC_JUMP_SLOT) →
      (is_plt = false → elf_r_type r_info = R_GENERIC_GLOB_DAT ∨
        elf_r_type r_info = R_GENERIC_ABS) →
      (e.bias_addr + r_offset < e.base_addr →
        collect_slot e slots is_plt symidx callee r_offset r_info =
          .error .Format) ∧
      (e.base_addr ≤ e.bias_addr + r_offset →
        (∀ expected, callee = some expected →
          (e.read_word (e.bias_addr + r_offset) ∈ expected →
            collect_slot e slots is_plt symidx callee r_offset r_info =
              .ok (insertSorted slots (e.bias_addr + r_offset))) ∧
          (e.read_word (e.bias_addr + r_offset) ∉ expected →
            (is_plt = true ∧ expected.length = 1 ∧
                e.is_addr_in_load_segments
                  (e.read_word (e.bias_addr + r_offset)) = true →
              collect_slot e slots is_plt symidx callee r_offset r_info =
                .ok (insertSorted slots (e.bias_addr + r_offset))) ∧
            (¬ (is_plt = true ∧ expected.length = 1 ∧
                e.is_addr_in_load_segments
                  (e.read_word (e.bias_addr + r_offset)) = true) →
              collect_slot e slots is_plt symidx callee r_offset r_info =
                .ok slots))) ∧
        (callee = none →
          collect_slot e slots is_plt symidx callee r_offset r_info =
            .ok (insertSorted slots (e.bias_addr + r_offset))))) ∧
    (∀ (e : ElfView) (slots : List Nat) (is_plt : Bool)
        (symidx r_offset r_info : Nat) (callee : Option (List Nat)),
      elf_r_sym r_info ≠ symidx →
      collect_slot e slots is_plt symidx callee r_offset r_info = .ok slots) := by
  refine ⟨?_, ?_, ?_⟩
  · intro e callee h
    rw [find_got_slots, h]
  · intro e slots is_plt symidx r_offset r_info callee hsym hjump hdyn
    have hc1 : ¬ elf_r_sym r_info ≠ symidx := by simp [hsym]
    have hc2 : ¬ (is_plt = true ∧ elf_r_type r_info ≠ R_GENERIC_JUMP_SLOT) := by
      rintro ⟨h1, h2⟩
      exact h2 (hjump h1)
    have hc3 : ¬ (is_plt = false ∧ elf_r_type r_info ≠ R_GENERIC_GLOB_DAT ∧
        elf_r_type r_info ≠ R_GENERIC_ABS) := by
      rintro ⟨h1, h2, h3⟩
      rcases hdyn h1 with h | h
      · exact h2 h
      · exact h3 h
    constructor
    · intro hlt
      simp only [collect_slot]
      rw [if_neg hc1, if_neg hc2, if_neg hc3, if_pos hlt]
    · intro hge
      have hnlt : ¬ e.bias_addr + r_offset < e.base_addr := by omega
      constructor
      · intro expected hcallee
        subst hcallee
        constructor
        · intro hmem
          simp only [collect_slot]
          rw [if_neg hc1, if_neg hc2, if_neg hc3, if_neg hnlt,
            if_neg (by simpa using hmem)]
        · intro hnmem
          constructor
          · intro hlazy
            simp only [collect_slot]
            rw [if_neg hc1, if_neg hc2, if_neg hc3, if_neg hnlt, if_pos hnmem,
              if_neg (by simpa using hlazy)]
          · intro hnolazy
            simp only [collect_slot]
            rw [if_neg hc1, if_neg hc2, if_neg hc3, if_neg hnlt, if_pos hnmem,
              if_pos hnolazy]
      · intro hcallee
        subst hcallee
        simp only [collect_slot]
        rw [if_neg hc1, if_neg hc2, if_neg hc3, if_neg hnlt]
  · intro e slots is_plt symidx r_offset r_info callee hsym
    simp only [collect_slot]
    rw [if_pos hsym]

/-- Witness for C7: on `elfExample`, the callee filter `[2000]` does not
match the slot's current value 1010, but the PLT lazy-binding exception
applies (single target, 1010 ∈ [1000, 1100)), so slot 1040 is kept; and a
missing symbol yields `Ok` with the empty slot list. -/
theorem C7_find_got_slots_filter_spec_witness :
    collect_slot elfExample [] true 7 (some [2000]) 40 (7 * 2 ^ 32 + 1026) =
      .ok [1040] ∧
    find_got_slots elfNoSym (some [2000]) = .ok [] := by
  constructor
  · have h0 := C7_find_got_slots_filter_spec.2.1 elfExample [] true 7 40
      (7 * 2 ^ 32 + 1026) (some [2000]) (by decide) (fun _ => by decide)
      (fun h => Bool.noConfusion h)
    have h1 := (h0.2 (by decide)).1 [2000] rfl
    have h2 := (h1.2 (by decide)).1 (by decide)
    exact h2
  · exact C7_find_got_slots_filter_spec.1 elfNoSym (some [2000]) rfl

/-- C3 counterexample: under the same adversarial memory (every store
leaves `0xdead` behind), the refresh engine's `patch_slot` detects the
mismatch and fails with `GotVerify`, but `Elf::hook`'s `replace_function`
performs no read-back comparison: it returns `Ok` while the slot holds
`0xdead ≠ 7`. So not every GOT slot write performed by the engine
verifies the written value. -/
theorem C3_replace_function_no_verify_counterexample :
    (patch_slot advEnv memExample 50 7).1 = .error .GotVerify ∧
    (replace_function advEnv memExample 50 7).1 = .ok () ∧
    memAt (replace_function advEnv memExample 50 7).2.1 50 = 0xdead ∧
    (0xdead : Nat) ≠ 7 := by
  refine ⟨by decide, by decide, by decide, by decide⟩

/-- C3 amended: the refresh engine's `patch_slot` follows the atomic
slot-write contract — under working protection syscalls and no guard trip,
it stores, reads the slot back, succeeds exactly when the read-back equals
the intended value (`GotVerify` otherwise), and in both cases the page
protection afterwards equals the protection before. `Elf::hook`'s
`replace_function` path does not verify: every error it can return comes
from a protection query (never from a value comparison — `GotVerify` is
impossible), and under working protection syscalls it returns `Ok`
unconditionally, restoring the previous protection. -/
theorem C3_slot_write_amended :
    (∀ (env : MemEnv) (m : MemState) (addr value : Nat),
      env.getProtErr addr = none →
      (∀ p, env.setProtErr addr p = none) →
      env.storeFault addr = false →
      (env.storeActual addr value = value →
        (patch_slot env m addr value).1 = .ok () ∧
        memAt (patch_slot env m addr value).2 addr = value ∧
        protAt (patch_slot env m addr value).2 addr = protAt m addr) ∧
      (env.storeActual addr value ≠ value →
        (patch_slot env m addr value).1 = .error .GotVerify ∧
        protAt (patch_slot env m addr value).2 addr = protAt m addr)) ∧
    (∀ (env : MemEnv) (m : MemState) (addr value : Nat) (x : Errno),
      (replace_function env m addr value).1 = .error x →
      env.getProtErr addr = some x ∨
      env.setProtErr addr (PROT_READ_FLAG ||| PROT_WRITE_FLAG) = some x) ∧
    (∀ (env : MemEnv) (m : MemState) (addr value : Nat),
      env.getProtErr addr = none →
      (∀ p, env.setProtErr addr p = none) →
      (replace_function env m addr value).1 = .ok () ∧
      protAt (replace_function env m addr value).2.1 addr = protAt m addr) := by
  refine ⟨?_, ?_, ?_⟩
  · intro env m addr value hget hset hfault
    constructor
    · intro hok
      by_cases hch : protAt m addr = PROT_READ_FLAG ||| PROT_WRITE_FLAG
      all_goals simp only [protAt] at hch
      · simp [patch_slot, hget, hset, hfault, hok, hch, memAt, protAt,
          lookupA_insertA_self]
      · simp [patch_slot, hget, hset, hfault, hok, hch, memAt, protAt,
          lookupA_insertA_self]
    · intro hbad
      by_cases hch : protAt m addr = PROT_READ_FLAG ||| PROT_WRITE_FLAG
      all_goals simp only [protAt] at hch
      · simp [patch_slot, hget, hset, hfault, hbad, hch, memAt, protAt,
          lookupA_insertA_self]
      · simp [patch_slot, hget, hset, hfault, hbad, hch, memAt, protAt,
          lookupA_insertA_self]
  · intro env m addr value x h
    by_cases heq : memAt m addr = value
    · rw [replace_function, if_pos heq] at h
      exact absurd h (by simp)
    · cases hget : env.getProtErr addr with
      | some er =>
        rw [replace_function, if_neg heq] at h
        simp only [hget] at h
        have hex : er = x := Except.error.inj h
        exact Or.inl (congrArg some hex)
      | none =>
        by_cases hch : protAt m addr = PROT_READ_FLAG ||| PROT_WRITE_FLAG
        · rw [replace_function, if_neg heq] at h
          simp [hget, hch] at h
        · cases hs : env.setProtErr addr (PROT_READ_FLAG ||| PROT_WRITE_FLAG) with
          | some er =>
            rw [replace_function, if_neg heq] at h
            simp only [hget, ne_eq, hch, not_false_eq_true, if_true, hs] at h
            have hex : er = x := Except.error.inj h
            exact Or.inr (congrArg some hex)
          | none =>
            rw [replace_function, if_neg heq] at h
            simp [hget, hch, hs] at h
  · intro env m addr value hget hset
    by_cases heq : memAt m addr = value
    · rw [replace_function, if_pos heq]
      exact ⟨rfl, rfl⟩
    · by_cases hch : protAt m addr = PROT_READ_FLAG ||| PROT_WRITE_FLAG
      all_goals simp only [protAt] at hch
      · rw [replace_function, if_neg heq]
        simp [hget, hset, hch, protAt, lookupA_insertA_self]
      · rw [replace_function, if_neg heq]
        simp [hget, hset, hch, protAt, lookupA_insertA_self]

/-- Witness for C3's amended claim: on `memExample` (slot 50 holds 1,
page `rw-`) with honest syscalls but adversarial stores (`advEnv`),
`patch_slot` of value 7 fails with `GotVerify` while `replace_function`
returns `Ok` with the page protection preserved. -/
theorem C3_slot_write_amended_witness :
    (patch_slot advEnv memExample 50 7).1 = .error .GotVerify ∧
    (replace_function advEnv memExample 50 7).1 = .ok () ∧
    protAt (replace_function advEnv memExample 50 7).2.1 50 = protAt memExample 50 := by
  have h1 := (C3_slot_write_amended.1 advEnv memExample 50 7 rfl (fun _ => rfl) rfl).2
    (by decide)
  have h3 := C3_slot_write_amended.2.2 advEnv memExample 50 7 rfl (fun _ => rfl)
  exact ⟨h1.1, h3.1, h3.2⟩

/-! ### Helper lemmas for the lifecycle entries -/

theorem ensure_ctx_same_pid (env : MemEnv) (pid : Nat) (cs : CoreState)
    (w : World) (h : cs.process_id = pid) :
    ensure_process_context env pid cs w = (cs, w) := by
  by_cases h0 : pid = 0
  · simp [ensure_process_context, h0]
  · simp [ensure_process_context, h0, h]

theorem add_hook_record_tasks (cs : CoreState) (t : Nat) (c : Int)
    (l s : String) (n st : Nat) :
    (add_hook_record cs t c l s n st).tasks = cs.tasks := by
  simp only [add_hook_record, push_record]
  split <;> rfl

theorem bumpProxy_funcs (nodes : List ProxyNode) (f : Nat)
    (h : ∃ n ∈ nodes, n.func = f) :
    ∃ l, bumpProxy nodes f = some l ∧
      l.map ProxyNode.func = nodes.map ProxyNode.func := by
  induction nodes with
  | nil => rcases h with ⟨n, hn, _⟩; cases hn
  | cons n rest ih =>
    by_cases hf : n.func = f
    · refine ⟨{ n with ref_count := n.ref_count + 1, enabled := true } :: rest,
        ?_, ?_⟩
      · simp [bumpProxy, hf]
      · simp
    · rcases h with ⟨m, hm, hmf⟩
      rcases List.mem_cons.mp hm with rfl | hm'
      · exact absurd hmf hf
      · rcases ih ⟨m, hm', hmf⟩ with ⟨l, hl, hfuncs⟩
        exact ⟨n :: l, by simp [bumpProxy, hf, hl], by simp [hfuncs]⟩

/-! ### C10 -/

/-- C10 counterexample: on a never-initialized engine, `unhook(5)` with an
unregistered nonzero stub returns the init status `Uninit`, not
`InvalidArg` as the claim states — the init-status gate fires before the
registered-stub check. -/
theorem C10_unhook_invalidarg_counterexample :
    (unhook honestMem 42 uninitState emptyWorld 5).1 = Errno.Uninit ∧
    Errno.Uninit ≠ Errno.InvalidArg := by
  exact ⟨rfl, by decide⟩

/-- C10 (amended): `unhook(0)` returns `InvalidArg` with all state
unchanged, unconditionally. On an engine whose init did not succeed, a
nonzero stub returns the stored init status (state unchanged) instead of
`InvalidArg`. Only on a successfully initialized engine in an unchanged
process does an unregistered nonzero stub return `InvalidArg` with all
state unchanged — no slot written, no task, slot set or record touched. -/
theorem C10_unhook_invalid_stub_amended (env : MemEnv) (pid : Nat)
    (cs : CoreState) (w : World) (stub : Nat) :
    (unhook env pid cs w 0 = (.InvalidArg, cs, w)) ∧
    (¬ cs.init.status = .Ok → ¬ stub = 0 →
      unhook env pid cs w stub = (cs.init.status, cs, w)) ∧
    (cs.init.status = .Ok → cs.process_id = pid →
      lookupA cs.tasks stub = none → ¬ stub = 0 →
      unhook env pid cs w stub = (.InvalidArg, cs, w)) := by
  refine ⟨by simp [unhook], ?_, ?_⟩
  · intro hbad hstub
    simp [unhook, hstub, hbad]
  · intro hok hpid hnone hstub
    simp [unhook, hstub, hok, ensure_ctx_same_pid env pid cs w hpid, hnone]

/-- Witness for C10 at a concrete initialized state. -/
theorem C10_unhook_invalid_stub_amended_witness :
    unhook honestMem 42 manualReadyState emptyWorld 7 =
      (.InvalidArg, manualReadyState, emptyWorld) :=
  (C10_unhook_invalid_stub_amended honestMem 42 manualReadyState emptyWorld
    7).2.2 (by decide) (by decide) (by decide) (by decide)

/-! ### C1 -/

/-- C1 counterexample: after `hook_single(..., new_func=77)` has returned
stub 1, a second `hook_single` with the very same replacement address 77
(same caller, same symbol) does not fail — it returns the fresh stub 2
and a second task with `new_func = 77` is registered alongside the first,
with no unhook in between. -/
theorem C1_duplicate_proxy_counterexample :
    c1First.1 = some 1 ∧ c1Second.1 = some 2 ∧
    (lookupA c1Second.2.1.tasks 1).map Task.new_func = some 77 ∧
    (lookupA c1Second.2.1.tasks 2).map Task.new_func = some 77 := by
  exact ⟨rfl, rfl, rfl, rfl⟩

/-- C1 (amended): registration never deduplicates `new_func`: on an
initialized Manual-mode engine (no fork in between) every well-formed
`hook_single` call succeeds with the next stub and registers its own
task, regardless of how many existing tasks already carry the same
address F. The uniqueness machinery lives one level down, at the hub:
`add_proxy` of an F already chained returns `Ok` (never `Dup`) and bumps
the existing node's `ref_count` instead of adding a second node, so the
proxy chain stays duplicate-free while both stubs remain registered. -/
theorem C1_duplicate_registration_amended (env : RefreshEnv)
    (cs : CoreState) (w : World) (path sym : String) (callee : Option String)
    (F : Nat) (hooked : Bool) (hub : Hub)
    (hok : cs.init.status = .Ok) (hmode : cs.init.mode = .Manual)
    (hpid : cs.process_id = env.current_pid)
    (hpath : ¬ path = "") (hsym : ¬ sym = "") (hF : ¬ F = 0)
    (hmem : ∃ n ∈ hub.nodes, n.func = F) :
    ((hook_single env cs w path callee sym F hooked).1 = some cs.next_stub ∧
     (lookupA (hook_single env cs w path callee sym F hooked).2.1.tasks
        cs.next_stub).map Task.new_func = some F) ∧
    ((add_proxy hub F).1 = .Ok ∧
     (add_proxy hub F).2.nodes.map ProxyNode.func
        = hub.nodes.map ProxyNode.func) := by
  constructor
  · have hreg : hook_single env cs w path callee sym F hooked =
        add_task env cs w
          { stub := 0, task_type := .Single,
            caller_path_name := some path, caller_allow_filter := false,
            callee_path_name := callee, sym_name := sym, new_func := F,
            hooked := hooked } := by
      simp [hook_single, hpath, hsym, hF]
    rw [hreg]
    simp only [add_task, hok, hmode,
      ensure_ctx_same_pid env.mem env.current_pid cs w hpid]
    simp only [ne_eq, not_true_eq_false, if_false, reduceIte]
    constructor
    · simp
    · simp [add_hook_record_tasks, lookupA_insertA_self]
  · rcases bumpProxy_funcs hub.nodes F hmem with ⟨l, hl, hfuncs⟩
    simp [add_proxy, hF, hl, hfuncs]

/-- Witness for C1: the second registration of 77 on the state left by
the first, and a hub already chaining 77. -/
theorem C1_duplicate_registration_amended_witness :
    ((hook_single idleEnv c1First.2.1 c1First.2.2.1 "libx.so" none "puts" 77
        false).1 = some c1First.2.1.next_stub ∧
     (lookupA (hook_single idleEnv c1First.2.1 c1First.2.2.1 "libx.so" none
        "puts" 77 false).2.1.tasks c1First.2.1.next_stub).map Task.new_func
        = some 77) ∧
    ((add_proxy c1Hub 77).1 = .Ok ∧
     (add_proxy c1Hub 77).2.nodes.map ProxyNode.func
        = c1Hub.nodes.map ProxyNode.func) :=
  C1_duplicate_registration_amended idleEnv c1First.2.1 c1First.2.2.1
    "libx.so" "puts" none 77 false c1Hub (by decide) (by decide) (by decide)
    (by decide) (by decide) (by decide) (by decide)

theorem applySlots_abort (env : RefreshEnv) (task : Task) (caller : ModuleInfo)
    (cs : CoreState) (w : World) (events : List CallbackEvent) (ha : Bool)
    (slot_addr : Nat) (rest : List Nat) (er : Errno)
    (h : (applySlots env task caller cs w events ha [slot_addr]).result
      = .error er) :
    applySlots env task caller cs w events ha (slot_addr :: rest)
      = applySlots env task caller cs w events ha [slot_addr] := by
  cases hs : applySlotStep env task caller cs w events ha slot_addr with
  | cont cs1 w1 events1 ha1 =>
    rw [applySlots, hs] at h
    simp only [applySlots] at h
    cases h
  | abort out => rw [applySlots, hs, applySlots, hs]

theorem refreshTasks_error_continues (env : RefreshEnv)
    (cache : List (Nat × Except Errno CalleeResolve)) (module : ModuleInfo)
    (cs : CoreState) (w : World) (events : List CallbackEvent)
    (task_stub : Nat) (rest : List Nat) (task : Task) (callee : CalleeResolve)
    (er : Errno)
    (h1 : lookupA cs.tasks task_stub = some task)
    (h2 : is_single_task_bound_to_other_module cs task module = false)
    (h3 : lookupA cache task_stub = some (.ok callee))
    (h4 : env.taskMatchCaller task module = true)
    (h5 : (apply_task_for_module env cs w task module callee).result
      = .error er) :
    refreshTasksForModule env cache module cs w .Ok events (task_stub :: rest)
      = refreshTasksForModule env cache module
          (apply_task_for_module env cs w task module callee).cs
          (apply_task_for_module env cs w task module callee).w er
          (events ++ (apply_task_for_module env cs w task module callee).events)
          rest := by
  simp only [refreshTasksForModule, h1, h2, h3, h4, h5, Bool.false_eq_true,
    if_false, Bool.true_eq_false, reduceIte]

theorem refreshTasks_fe_frozen (env : RefreshEnv)
    (cache : List (Nat × Except Errno CalleeResolve)) (module : ModuleInfo)
    (stubs : List Nat) :
    ∀ (cs : CoreState) (w : World) (fe : Errno) (events : List CallbackEvent),
      ¬ fe = Errno.Ok →
      (refreshTasksForModule env cache module cs w fe events stubs).2.2.1 = fe := by
  induction stubs with
  | nil => intro cs w fe events _; rfl
  | cons stub rest ih =>
    intro cs w fe events hfe
    simp only [refreshTasksForModule]
    repeat' split
    all_goals try rw [if_neg hfe]
    all_goals exact ih _ _ _ _ hfe

theorem refreshModules_fe_frozen (env : RefreshEnv)
    (cache : List (Nat × Except Errno CalleeResolve)) (only_new : Bool)
    (task_list : List Nat) (modules : List ModuleInfo) :
    ∀ (cs : CoreState) (w : World) (fe : Errno) (events : List CallbackEvent),
      ¬ fe = Errno.Ok →
      (refreshModulesLoop env cache only_new task_list cs w fe events
        modules).2.2.1 = fe := by
  induction modules with
  | nil => intro cs w fe events _; rfl
  | cons module rest ih =>
    intro cs w fe events hfe
    simp only [refreshModulesLoop]
    repeat' split
    · exact ih _ _ _ _ hfe
    · exact ih _ _ _ _ hfe
    · rw [refreshTasks_fe_frozen env cache module task_list cs w fe events hfe]
      exact ih _ _ _ _ hfe

theorem collectRetiredLoop_nil (force : Bool) (now active idx : Nat)
    (ready : List Nat) :
    collectRetiredLoop force now active [] idx ready = ([], ready) := by
  rw [collectRetiredLoop]
  simp

theorem collect_retired_w_nil (force : Bool) (w : World)
    (h : w.retired = []) : collect_retired_w force w = w := by
  simp only [collect_retired_w, h, collectRetiredLoop_nil, List.foldl_nil]
  rw [← h]

/-- C4 counterexample: with two discovered slots (200, 300) for the same
(module, task) pair and a protection-query failure on slot 200 only, the
apply call aborts with `GetProt` after slot 200: slot 300 of the same
pair is never processed (no `SlotEntry`, no `task_slots` binding), so a
transient slot error does NOT "skip only that slot". -/
theorem C4_same_pair_slot_counterexample :
    c4Apply.result = .error .GetProt ∧
    lookupA c4Apply.cs.slots ⟨"libc4.so", 4096, 1, 1, 300⟩ = none ∧
    lookupA c4Apply.cs.task_slots 9 = none := by
  refine ⟨?_, ?_, ?_⟩ <;>
  simp +decide [c4Apply, apply_task_for_module, applySlots, applySlotStep, create_hub,
    collect_retired_w_nil, read_slot, patch_slot, add_proxy_w, add_proxy,
    bumpProxy, first_enabled_w, first_enabled, anyEnabled, hub_trampo_w,
    emit_event, emit_nosym_event, insertKeySet, lookupA, insertA, memAt,
    protAt, c4Env, c4Task, c4Module, c4StateReg, c4Cache, idleEnv, honestMem,
    emptyWorld, autoReadyState, manualReadyState, uninitState]

/-- C4 (amended): the abort granularity of a transient slot error is the
whole (module, task) pair, not the single slot: (1) when the first slot
of a pair fails, the slot loop's result on the longer list is literally
the result on the singleton list — the remaining slots of that pair are
left unprocessed (the `?` in `apply_task_for_module`); (2) the enclosing
per-module task loop does continue with the remaining tasks, recording
the error as `first_err`; (3) once set, a non-`Ok` `first_err` is never
overwritten by either loop of `refresh_internal`, so the first error
becomes the pass's return status while all other (module, task) pairs are
still processed. -/
theorem C4_slot_error_abort_amended :
    (∀ (env : RefreshEnv) (task : Task) (caller : ModuleInfo) (cs : CoreState)
      (w : World) (events : List CallbackEvent) (ha : Bool) (slot_addr : Nat)
      (rest : List Nat) (er : Errno),
      (applySlots env task caller cs w events ha [slot_addr]).result = .error er →
      applySlots env task caller cs w events ha (slot_addr :: rest)
        = applySlots env task caller cs w events ha [slot_addr]) ∧
    (∀ (env : RefreshEnv) (cache : List (Nat × Except Errno CalleeResolve))
      (module : ModuleInfo) (cs : CoreState) (w : World)
      (events : List CallbackEvent) (task_stub : Nat) (rest : List Nat)
      (task : Task) (callee : CalleeResolve) (er : Errno),
      lookupA cs.tasks task_stub = some task →
      is_single_task_bound_to_other_module cs task module = false →
      lookupA cache task_stub = some (.ok callee) →
      env.taskMatchCaller task module = true →
      (apply_task_for_module env cs w task module callee).result = .error er →
      refreshTasksForModule env cache module cs w .Ok events (task_stub :: rest)
        = refreshTasksForModule env cache module
            (apply_task_for_module env cs w task module callee).cs
            (apply_task_for_module env cs w task module callee).w er
            (events ++ (apply_task_for_module env cs w task module callee).events)
            rest) ∧
    (∀ (env : RefreshEnv) (cache : List (Nat × Except Errno CalleeResolve))
      (only_new : Bool) (task_list : List Nat) (modules : List ModuleInfo)
      (cs : CoreState) (w : World) (fe : Errno) (events : List CallbackEvent),
      ¬ fe = Errno.Ok →
      (refreshModulesLoop env cache only_new task_list cs w fe events
        modules).2.2.1 = fe) := by
  refine ⟨?_, ?_, ?_⟩
  · intro env task caller cs w events ha slot_addr rest er h
    exact applySlots_abort env task caller cs w events ha slot_addr rest er h
  · intro env cache module cs w events task_stub rest task callee er h1 h2 h3 h4 h5
    exact refreshTasks_error_continues env cache module cs w events task_stub rest
      task callee er h1 h2 h3 h4 h5
  · intro env cache only_new task_list modules cs w fe events hfe
    exact refreshModules_fe_frozen env cache only_new task_list modules cs w fe
      events hfe

/-- Witness for C4 on the concrete two-slot scenario. -/
theorem C4_slot_error_abort_amended_witness :
    (applySlots c4Env c4Task c4Module autoReadyState emptyWorld [] false
        [200, 300]
      = applySlots c4Env c4Task c4Module autoReadyState emptyWorld [] false
        [200]) ∧
    (refreshTasksForModule c4Env c4Cache c4Module c4StateReg emptyWorld .Ok []
        [9]
      = refreshTasksForModule c4Env c4Cache c4Module c4Apply.cs c4Apply.w
        .GetProt ([] ++ c4Apply.events) []) ∧
    (refreshModulesLoop c4Env c4Cache false [9] c4StateReg emptyWorld .GetProt
        [] [c4Module]).2.2.1 = .GetProt :=
  ⟨C4_slot_error_abort_amended.1 c4Env c4Task c4Module autoReadyState
      emptyWorld [] false 200 [300] .GetProt (by
        simp +decide [c4Apply, apply_task_for_module, applySlots, applySlotStep, create_hub,
    collect_retired_w_nil, read_slot, patch_slot, add_proxy_w, add_proxy,
    bumpProxy, first_enabled_w, first_enabled, anyEnabled, hub_trampo_w,
    emit_event, emit_nosym_event, insertKeySet, lookupA, insertA, memAt,
    protAt, c4Env, c4Task, c4Module, c4StateReg, c4Cache, idleEnv, honestMem,
    emptyWorld, autoReadyState, manualReadyState, uninitState]),
   C4_slot_error_abort_amended.2.1 c4Env c4Cache c4Module c4StateReg emptyWorld
      [] 9 [] c4Task ⟨none⟩ .GetProt (by decide) (by decide) (by decide)
      (by decide) (by
        simp +decide [c4Apply, apply_task_for_module, applySlots, applySlotStep, create_hub,
    collect_retired_w_nil, read_slot, patch_slot, add_proxy_w, add_proxy,
    bumpProxy, first_enabled_w, first_enabled, anyEnabled, hub_trampo_w,
    emit_event, emit_nosym_event, insertKeySet, lookupA, insertA, memAt,
    protAt, c4Env, c4Task, c4Module, c4StateReg, c4Cache, idleEnv, honestMem,
    emptyWorld, autoReadyState, manualReadyState, uninitState]),
   C4_slot_error_abort_amended.2.2 c4Env c4Cache false [9] [c4Module]
      c4StateReg emptyWorld .GetProt [] (by decide)⟩

theorem refTotal_mem_le (nodes : List ProxyNode) (n : ProxyNode)
    (hn : n ∈ nodes) (hf : n.func = f) : n.ref_count ≤ refTotal nodes f := by
  have hmem : n.ref_count ∈
      (nodes.filter (fun m => decide (m.func = f))).map ProxyNode.ref_count :=
    List.mem_map_of_mem _ (List.mem_filter.mpr ⟨hn, by simp [hf]⟩)
  exact List.single_le_sum (fun x _ => Nat.zero_le x) _ hmem

theorem refTotal_cons (n : ProxyNode) (rest : List ProxyNode) (f : Nat) :
    refTotal (n :: rest) f =
      (if n.func = f then n.ref_count else 0) + refTotal rest f := by
  simp only [refTotal, List.filter_cons]
  by_cases h : n.func = f <;> simp [h]

theorem countChain_cons (tasks : List (Nat × Task)) (c : Nat)
    (rest : List Nat) (f : Nat) :
    countChain tasks (c :: rest) f =
      (if chainFunc tasks c = f then 1 else 0) + countChain tasks rest f := by
  simp only [countChain, List.filter_cons]
  by_cases h : chainFunc tasks c = f
  · simp [h]
    omega
  · simp [h]

theorem exists_pos_of_refTotal_pos (nodes : List ProxyNode) (f : Nat)
    (h : 1 ≤ refTotal nodes f) :
    ∃ n ∈ nodes, n.func = f ∧ 1 ≤ n.ref_count := by
  induction nodes with
  | nil => simp [refTotal] at h
  | cons n rest ih =>
    rw [refTotal_cons] at h
    by_cases hf : n.func = f
    · rw [if_pos hf] at h
      by_cases hr : 1 ≤ n.ref_count
      · exact ⟨n, List.mem_cons_self n rest, hf, hr⟩
      · rcases ih (by omega) with ⟨m, hm, hmf, hmr⟩
        exact ⟨m, List.mem_cons_of_mem n hm, hmf, hmr⟩
    · rw [if_neg hf] at h
      rcases ih (by omega) with ⟨m, hm, hmf, hmr⟩
      exact ⟨m, List.mem_cons_of_mem n hm, hmf, hmr⟩

theorem anyEnabled_false_of_zero (nodes : List ProxyNode)
    (hwf : nodesWF nodes) (hz : ∀ f, refTotal nodes f = 0) :
    anyEnabled nodes = false := by
  rw [anyEnabled, List.any_eq_false]
  intro n hn
  intro hen
  have h1 : 1 ≤ n.ref_count := (hwf n hn).1 hen
  have h2 : n.ref_count ≤ refTotal nodes n.func := refTotal_mem_le nodes n hn rfl
  rw [hz n.func] at h2
  omega

theorem anyEnabled_true_of_pos (nodes : List ProxyNode) (f : Nat)
    (hwf : nodesWF nodes) (hp : 1 ≤ refTotal nodes f) :
    anyEnabled nodes = true := by
  rcases exists_pos_of_refTotal_pos nodes f hp with ⟨n, hn, _, hr⟩
  rw [anyEnabled, List.any_eq_true]
  refine ⟨n, hn, ?_⟩
  by_cases he : n.enabled = true
  · exact he
  · have := (hwf n hn).2 (by simpa using he)
    omega

theorem countChain_pos_of_mem (tasks : List (Nat × Task)) (chain : List Nat)
    (s : Nat) (hs : s ∈ chain) :
    1 ≤ countChain tasks chain (chainFunc tasks s) := by
  have hmem : s ∈ chain.filter
      (fun x => decide (chainFunc tasks x = chainFunc tasks s)) :=
    List.mem_filter.mpr ⟨hs, by simp⟩
  have hlen := List.length_pos_of_mem hmem
  simpa [countChain] using hlen

theorem countChain_retain (tasks : List (Nat × Task)) (chain : List Nat)
    (stub : Nat) (hnd : chain.Nodup) (f : Nat) :
    countChain tasks chain f =
      countChain tasks (chain.filter (fun s => decide (¬ s = stub))) f +
        (if stub ∈ chain ∧ chainFunc tasks stub = f then 1 else 0) := by
  induction chain with
  | nil => simp [countChain]
  | cons c rest ih =>
    have hnd' : rest.Nodup := (List.nodup_cons.mp hnd).2
    have hcn : c ∉ rest := (List.nodup_cons.mp hnd).1
    by_cases hcs : c = stub
    · subst hcs
      have hfilt : rest.filter (fun s => decide (¬ s = c)) = rest := by
        apply List.filter_eq_self.mpr
        intro a ha
        simp only [decide_eq_true_eq]
        exact fun he => hcn (he ▸ ha)
      have hfc : (c :: rest).filter (fun s => decide (¬ s = c)) = rest := by
        rw [List.filter_cons]
        simp only [hfilt]
        simp
      rw [countChain_cons, hfc]
      by_cases hcf : chainFunc tasks c = f <;> simp [hcf] <;> omega
    · rw [countChain_cons]
      have hfc : (c :: rest).filter (fun s => decide (¬ s = stub)) =
          c :: rest.filter (fun s => decide (¬ s = stub)) := by
        rw [List.filter_cons]
        simp [hcs]
      rw [hfc, countChain_cons, ih hnd']
      have hsc : ¬ stub = c := fun h => hcs h.symm
      simp only [List.mem_cons, hsc, false_or]
      omega

theorem disableProxy_spec (nodes : List ProxyNode) (f : Nat)
    (hwf : nodesWF nodes) (hp : 1 ≤ refTotal nodes f) :
    ∃ nodes', disableProxy nodes f = some nodes' ∧ nodesWF nodes' ∧
      refTotal nodes' f = refTotal nodes f - 1 ∧
      (∀ g, ¬ g = f → refTotal nodes' g = refTotal nodes g) := by
  induction nodes with
  | nil => simp [refTotal] at hp
  | cons n rest ih =>
    have hwfn := hwf n (List.mem_cons_self n rest)
    have hwfr : nodesWF rest := fun m hm => hwf m (List.mem_cons_of_mem n hm)
    by_cases hmatch : n.func = f ∧ n.enabled = true
    · have href : 1 ≤ n.ref_count := hwfn.1 hmatch.2
      refine ⟨(if 1 < n.ref_count then { n with ref_count := n.ref_count - 1 }
          else { n with ref_count := 0, enabled := false }) :: rest,
        ?_, ?_, ?_, ?_⟩
      · rw [disableProxy, if_pos hmatch]
      · intro m hm
        rcases List.mem_cons.mp hm with rfl | hm'
        · by_cases hgt : 1 < n.ref_count
          · rw [if_pos hgt]
            refine ⟨fun _ => by simp; omega, fun hfalse => ?_⟩
            simp at hfalse
            rw [hfalse] at hmatch
            cases hmatch.2
          · rw [if_neg hgt]
            exact ⟨fun htrue => by simp at htrue, fun _ => rfl⟩
        · exact hwfr m hm'
      · by_cases hgt : 1 < n.ref_count
        · rw [if_pos hgt, refTotal_cons, refTotal_cons]
          have h1 : ({ n with ref_count := n.ref_count - 1 } : ProxyNode).func
              = f := hmatch.1
          rw [if_pos h1, if_pos hmatch.1]
          show n.ref_count - 1 + refTotal rest f =
            n.ref_count + refTotal rest f - 1
          omega
        · rw [if_neg hgt, refTotal_cons, refTotal_cons]
          have h1 : ({ n with ref_count := 0, enabled := false } :
              ProxyNode).func = f := hmatch.1
          rw [if_pos h1, if_pos hmatch.1]
          show 0 + refTotal rest f = n.ref_count + refTotal rest f - 1
          omega
      · intro g hg
        have hng : ¬ n.func = g := fun h => hg (h.symm.trans hmatch.1)
        by_cases hgt : 1 < n.ref_count
        · rw [if_pos hgt, refTotal_cons, refTotal_cons, if_neg hng, if_neg hng]
        · rw [if_neg hgt, refTotal_cons, refTotal_cons, if_neg hng, if_neg hng]
    · have hzero : (if n.func = f then n.ref_count else 0) = 0 := by
        by_cases hnf : n.func = f
        · rw [if_pos hnf]
          apply hwfn.2
          by_cases hen : n.enabled = true
          · exact absurd ⟨hnf, hen⟩ hmatch
          · simpa using hen
        · rw [if_neg hnf]
      have hrest : 1 ≤ refTotal rest f := by
        rw [refTotal_cons, hzero] at hp
        omega
      rcases ih hwfr hrest with ⟨rest', hdp, hwf', hdec, hother⟩
      refine ⟨n :: rest', ?_, ?_, ?_, ?_⟩
      · rw [disableProxy, if_neg hmatch, hdp]
        rfl
      · intro m hm
        rcases List.mem_cons.mp hm with rfl | hm'
        · exact hwfn
        · exact hwf' m hm'
      · rw [refTotal_cons, refTotal_cons, hzero, hdec]
        omega
      · intro g hg
        rw [refTotal_cons, refTotal_cons, hother g hg]

theorem patch_slot_honest (env : MemEnv) (m : MemState) (addr value : Nat)
    (he : honestEnv env) :
    (patch_slot env m addr value).1 = .ok () ∧
    memAt (patch_slot env m addr value).2 addr = value := by
  obtain ⟨hg, hs, hst, hsf, hr⟩ := he
  by_cases hp : protAt m addr ≠ PROT_READ_FLAG ||| PROT_WRITE_FLAG
  · constructor <;>
      simp [patch_slot, hg, hs, hst, hsf, hp, memAt, lookupA_insertA_self]
  · constructor <;>
      simp [patch_slot, hg, hs, hst, hsf, hp, memAt, lookupA_insertA_self]

theorem collect_retired_w_machine (force : Bool) (w : World) :
    (collect_retired_w force w).machine = w.machine := rfl

theorem collect_retired_w_nextHubPtr (force : Bool) (w : World) :
    (collect_retired_w force w).nextHubPtr = w.nextHubPtr := rfl

theorem collect_retired_w_nextTrampo (force : Bool) (w : World) :
    (collect_retired_w force w).nextTrampo = w.nextTrampo := rfl

theorem collect_retired_w_now (force : Bool) (w : World) :
    (collect_retired_w force w).now = w.now := rfl

theorem destroy_hub_w_machine (w : World) (h : Nat) (d : Bool) :
    (destroy_hub_w w h d).machine = w.machine := by
  unfold destroy_hub_w
  split
  · rfl
  · split <;> rfl

theorem destroy_hub_w_retired_mem (w : World) (h : Nat) (hh : ¬ h = 0) :
    (⟨h, w.now⟩ : RetiredHub) ∈ (destroy_hub_w w h true).retired := by
  unfold destroy_hub_w
  rw [if_neg hh, if_pos rfl]
  exact List.mem_append_right _ (List.mem_singleton.mpr rfl)

theorem applySlotStep_install (env : RefreshEnv) (task : Task)
    (caller : ModuleInfo) (cs : CoreState) (w : World)
    (events : List CallbackEvent) (ha : Bool) (slot_addr : Nat)
    (he : honestEnv env.mem)
    (hfresh : lookupA cs.slots ⟨caller.pathname, caller.base_addr,
      caller.instance_id, caller.namespace_id, slot_addr⟩ = none)
    (halloc : env.trampoAllocOk = true)
    (hF : ¬ task.new_func = 0)
    (hptr : 1 ≤ w.nextHubPtr) :
    ∃ cs' w' events',
      applySlotStep env task caller cs w events ha slot_addr
        = .cont cs' w' events' true ∧
      ∃ entry, lookupA cs'.slots ⟨caller.pathname, caller.base_addr,
          caller.instance_id, caller.namespace_id, slot_addr⟩ = some entry ∧
        entry.task_chain = [task.stub] ∧
        entry.orig_func = memAt w.machine slot_addr ∧
        ¬ entry.hub_ptr = 0 ∧
        memAt w'.machine slot_addr = hub_trampo_w w' entry.hub_ptr := by
  obtain ⟨hg, hs, hst, hsf, hr⟩ := he
  have hpz : ¬ w.nextHubPtr = 0 := by omega
  have hpatch1 : ∀ (X : MemState) (t : Nat),
      (patch_slot env.mem X slot_addr t).1 = .ok () :=
    fun X t => (patch_slot_honest env.mem X slot_addr t ⟨hg, hs, hst, hsf, hr⟩).1
  have hpatch2 : ∀ (X : MemState) (t : Nat),
      memAt (patch_slot env.mem X slot_addr t).2 slot_addr = t :=
    fun X t => (patch_slot_honest env.mem X slot_addr t ⟨hg, hs, hst, hsf, hr⟩).2
  simp only [applySlotStep, read_slot, hr, Bool.false_eq_true, if_false,
    Bool.true_eq_false, eq_self_iff_true, if_true, ne_eq, not_true, false_and,
    or_self, Except.toOption, Option.getD_some, hfresh, List.not_mem_nil,
    create_hub, halloc, collect_retired_w_nextHubPtr,
    collect_retired_w_nextTrampo, add_proxy_w, hpz, hF, add_proxy, bumpProxy,
    lookupA_insertA_self, hub_trampo_w, hpatch1, hpatch2]
  refine ⟨_, _, _, rfl, ?_⟩
  refine ⟨_, lookupA_insertA_self _ _ _, rfl, rfl, hpz, ?_⟩
  simp only [lookupA_insertA_self, hpatch2]

theorem unhookSlotLoop_single (env : MemEnv) (cs : CoreState) (w : World)
    (key : SlotKey) (slot : SlotEntry) (hub : Hub)
    (task_stub target_func : Nat)
    (he : honestEnv env)
    (hknd : (cs.slots.map Prod.fst).Nodup)
    (hslot : lookupA cs.slots key = some slot)
    (hhp : ¬ slot.hub_ptr = 0)
    (hhub : lookupA w.hubs slot.hub_ptr = some hub)
    (hwf : nodesWF hub.nodes)
    (hcnt : slotHubCount cs.tasks slot.task_chain hub.nodes)
    (hnd : slot.task_chain.Nodup)
    (hmem : task_stub ∈ slot.task_chain)
    (htf : chainFunc cs.tasks task_stub = target_func)
    (htf0 : ¬ target_func = 0) :
    (unhookSlotLoop env target_func task_stub cs w .Ok [key]).1 = .Ok ∧
    (slot.task_chain.filter (fun s => decide (¬ s = task_stub)) = [] →
      memAt (unhookSlotLoop env target_func task_stub cs w
          .Ok [key]).2.2.machine key.slot_addr = slot.orig_func ∧
      lookupA (unhookSlotLoop env target_func task_stub cs w
          .Ok [key]).2.1.slots key = none ∧
      (⟨slot.hub_ptr, w.now⟩ : RetiredHub) ∈
        (unhookSlotLoop env target_func task_stub cs w .Ok [key]).2.2.retired) ∧
    (¬ slot.task_chain.filter (fun s => decide (¬ s = task_stub)) = [] →
      memAt (unhookSlotLoop env target_func task_stub cs w
          .Ok [key]).2.2.machine key.slot_addr = hub.trampo ∧
      lookupA (unhookSlotLoop env target_func task_stub cs w
          .Ok [key]).2.1.slots key = some { slot with
        task_chain :=
          slot.task_chain.filter (fun s => decide (¬ s = task_stub)) }) := by
  obtain ⟨hg, hs, hst, hsf, hr⟩ := he
  have hpatch1 : ∀ (X : MemState) (t : Nat),
      (patch_slot env X key.slot_addr t).1 = .ok () := fun X t =>
    (patch_slot_honest env X key.slot_addr t ⟨hg, hs, hst, hsf, hr⟩).1
  have hpatch2 : ∀ (X : MemState) (t : Nat),
      memAt (patch_slot env X key.slot_addr t).2 key.slot_addr = t := fun X t =>
    (patch_slot_honest env X key.slot_addr t ⟨hg, hs, hst, hsf, hr⟩).2
  have hc1 : 1 ≤ countChain cs.tasks slot.task_chain target_func := by
    have h := countChain_pos_of_mem cs.tasks slot.task_chain task_stub hmem
    rwa [htf] at h
  have hrt : 1 ≤ refTotal hub.nodes target_func := by
    rw [← hcnt]
    exact hc1
  rcases disableProxy_spec hub.nodes target_func hwf hrt with
    ⟨nodes', hdp, hwf', hdec, hother⟩
  have hcnt' : ∀ f, countChain cs.tasks
      (slot.task_chain.filter (fun s => decide (¬ s = task_stub))) f
      = refTotal nodes' f := by
    intro f
    have hret := countChain_retain cs.tasks slot.task_chain task_stub hnd f
    by_cases hf : f = target_func
    · subst hf
      rw [if_pos ⟨hmem, htf⟩] at hret
      have h1 := hcnt f
      omega
    · rw [if_neg (fun hand => hf ((htf.symm.trans hand.2).symm))] at hret
      have h1 := hcnt f
      have h2 := hother f hf
      omega
  by_cases hc : slot.task_chain.filter (fun s => decide (¬ s = task_stub)) = []
  · have hz : ∀ f, refTotal nodes' f = 0 := by
      intro f
      have h := hcnt' f
      rw [hc] at h
      simpa [countChain] using h.symm
    have hAE : anyEnabled nodes' = false := anyEnabled_false_of_zero nodes' hwf' hz
    simp only [unhookSlotLoop, hslot, hhp, del_proxy_w, htf0, or_self, hhub,
      del_proxy, hdp, hAE, hpatch1, hpatch2, hc, destroy_hub_w_machine,
      eq_self_iff_true, if_true, if_false,
      Bool.false_eq_true, Bool.true_eq_false, ne_eq, not_true, false_and,
      true_or, or_true, false_or, or_false]
    refine ⟨trivial, fun _ => ⟨trivial, ?_, ?_⟩, fun hcc => hcc.elim⟩
    · exact lookupA_eraseA_self cs.slots key hknd
    · exact destroy_hub_w_retired_mem _ _ hhp
  · have hne : ∃ s, s ∈ slot.task_chain.filter
        (fun s => decide (¬ s = task_stub)) := by
      rcases List.exists_mem_of_ne_nil _ hc with ⟨s, hs'⟩
      exact ⟨s, hs'⟩
    rcases hne with ⟨s, hs'⟩
    have hpos : 1 ≤ refTotal nodes' (chainFunc cs.tasks s) := by
      rw [← hcnt']
      exact countChain_pos_of_mem _ _ s hs'
    have hAE : anyEnabled nodes' = true :=
      anyEnabled_true_of_pos nodes' (chainFunc cs.tasks s) hwf' hpos
    simp only [unhookSlotLoop, hslot, hhp, del_proxy_w, htf0, or_self, hhub,
      del_proxy, hdp, hAE, hpatch1, hpatch2, hc, hub_trampo_w,
      lookupA_insertA_self, eq_self_iff_true, if_true, if_false,
      Bool.false_eq_true, Bool.true_eq_false, ne_eq, not_true, false_and,
      true_or, or_true, false_or, or_false, not_false_iff, true_and]
    exact ⟨fun h => h.elim, fun _ => trivial⟩

/-- C2: the slot/trampoline ownership discipline, under a fault-free
memory oracle. (1) Install: the first `apply_task_for_module` slot step
for an untracked GOT slot captures `orig_func` from the slot's current
word, creates a hub, chains the task, and leaves the slot's in-memory
word equal to the hub's trampoline with the task on the (now non-empty)
`task_chain`. (2) Unhook: for a slot whose chain and hub satisfy the
ref-count correspondence, removing a task via `unhook_task`'s slot loop
returns Ok; if the removal empties the chain the slot word is rewritten
to the `orig_func` captured at install, the `SlotEntry` is dropped and
the hub is pushed onto the retired list; if another task still owns the
slot, the word still holds the hub's trampoline and the entry survives
with the surviving owners. -/
theorem C2_slot_trampoline_invariant :
    (∀ (env : RefreshEnv) (task : Task) (caller : ModuleInfo)
      (cs : CoreState) (w : World) (events : List CallbackEvent) (ha : Bool)
      (slot_addr : Nat),
      honestEnv env.mem →
      lookupA cs.slots ⟨caller.pathname, caller.base_addr,
        caller.instance_id, caller.namespace_id, slot_addr⟩ = none →
      env.trampoAllocOk = true → ¬ task.new_func = 0 → 1 ≤ w.nextHubPtr →
      ∃ cs' w' events',
        applySlotStep env task caller cs w events ha slot_addr
          = .cont cs' w' events' true ∧
        ∃ entry, lookupA cs'.slots ⟨caller.pathname, caller.base_addr,
            caller.instance_id, caller.namespace_id, slot_addr⟩ = some entry ∧
          entry.task_chain = [task.stub] ∧
          entry.orig_func = memAt w.machine slot_addr ∧
          ¬ entry.hub_ptr = 0 ∧
          memAt w'.machine slot_addr = hub_trampo_w w' entry.hub_ptr) ∧
    (∀ (env : MemEnv) (cs : CoreState) (w : World) (key : SlotKey)
      (slot : SlotEntry) (hub : Hub) (task_stub target_func : Nat),
      honestEnv env →
      (cs.slots.map Prod.fst).Nodup →
      lookupA cs.slots key = some slot →
      ¬ slot.hub_ptr = 0 →
      lookupA w.hubs slot.hub_ptr = some hub →
      nodesWF hub.nodes →
      slotHubCount cs.tasks slot.task_chain hub.nodes →
      slot.task_chain.Nodup →
      task_stub ∈ slot.task_chain →
      chainFunc cs.tasks task_stub = target_func →
      ¬ target_func = 0 →
      (unhookSlotLoop env target_func task_stub cs w .Ok [key]).1 = .Ok ∧
      (slot.task_chain.filter (fun s => decide (¬ s = task_stub)) = [] →
        memAt (unhookSlotLoop env target_func task_stub cs w
            .Ok [key]).2.2.machine key.slot_addr = slot.orig_func ∧
        lookupA (unhookSlotLoop env target_func task_stub cs w
            .Ok [key]).2.1.slots key = none ∧
        (⟨slot.hub_ptr, w.now⟩ : RetiredHub) ∈
          (unhookSlotLoop env target_func task_stub cs w
            .Ok [key]).2.2.retired) ∧
      (¬ slot.task_chain.filter (fun s => decide (¬ s = task_stub)) = [] →
        memAt (unhookSlotLoop env target_func task_stub cs w
            .Ok [key]).2.2.machine key.slot_addr = hub.trampo ∧
        lookupA (unhookSlotLoop env target_func task_stub cs w
            .Ok [key]).2.1.slots key = some { slot with
          task_chain :=
            slot.task_chain.filter (fun s => decide (¬ s = task_stub)) })) := by
  constructor
  · intro env task caller cs w events ha slot_addr he hfresh halloc hF hptr
    exact applySlotStep_install env task caller cs w events ha slot_addr he
      hfresh halloc hF hptr
  · intro env cs w key slot hub task_stub target_func he hknd hslot hhp hhub
      hwf hcnt hnd hmem htf htf0
    exact unhookSlotLoop_single env cs w key slot hub task_stub target_func he
      hknd hslot hhp hhub hwf hcnt hnd hmem htf htf0

theorem c2HubWF : nodesWF c2Hub.nodes := by
  intro n hn
  have h : n = ⟨77, 1, true⟩ ∨ n = ⟨88, 1, true⟩ := by
    simpa [c2Hub] using hn
  rcases h with rfl | rfl
  · exact ⟨fun _ => by decide, fun h2 => absurd h2 (by decide)⟩
  · exact ⟨fun _ => by decide, fun h2 => absurd h2 (by decide)⟩

theorem c2Count : slotHubCount c2State.tasks c2Slot.task_chain c2Hub.nodes := by
  intro f
  have h1 : c2Slot.task_chain = [1, 2] := rfl
  have h2 : c2Hub.nodes = [⟨77, 1, true⟩, ⟨88, 1, true⟩] := rfl
  have hcf1 : chainFunc c2State.tasks 1 = 77 := rfl
  have hcf2 : chainFunc c2State.tasks 2 = 88 := rfl
  rw [h1, h2, countChain_cons, countChain_cons, refTotal_cons, refTotal_cons]
  simp only [hcf1, hcf2]
  simp [countChain, refTotal]

/-- Witness for C2: the install step on an untracked slot 500, and the
unhook slot loop removing stub 1 from the two-owner slot fixture. -/
theorem C2_slot_trampoline_invariant_witness :
    (∃ cs' w' events',
      applySlotStep idleEnv c2Task c4Module autoReadyState emptyWorld [] false
          500 = .cont cs' w' events' true ∧
      ∃ entry, lookupA cs'.slots ⟨c4Module.pathname, c4Module.base_addr,
          c4Module.instance_id, c4Module.namespace_id, 500⟩ = some entry ∧
        entry.task_chain = [c2Task.stub] ∧
        entry.orig_func = memAt emptyWorld.machine 500 ∧
        ¬ entry.hub_ptr = 0 ∧
        memAt w'.machine 500 = hub_trampo_w w' entry.hub_ptr) ∧
    ((unhookSlotLoop honestMem 77 1 c2State c2World .Ok [c2Key]).1 = .Ok ∧
     (c2Slot.task_chain.filter (fun s => decide (¬ s = 1)) = [] →
       memAt (unhookSlotLoop honestMem 77 1 c2State c2World
           .Ok [c2Key]).2.2.machine c2Key.slot_addr = c2Slot.orig_func ∧
       lookupA (unhookSlotLoop honestMem 77 1 c2State c2World
           .Ok [c2Key]).2.1.slots c2Key = none ∧
       (⟨c2Slot.hub_ptr, c2World.now⟩ : RetiredHub) ∈
         (unhookSlotLoop honestMem 77 1 c2State c2World
           .Ok [c2Key]).2.2.retired) ∧
     (¬ c2Slot.task_chain.filter (fun s => decide (¬ s = 1)) = [] →
       memAt (unhookSlotLoop honestMem 77 1 c2State c2World
           .Ok [c2Key]).2.2.machine c2Key.slot_addr = c2Hub.trampo ∧
       lookupA (unhookSlotLoop honestMem 77 1 c2State c2World
           .Ok [c2Key]).2.1.slots c2Key = some { c2Slot with
         task_chain :=
           c2Slot.task_chain.filter (fun s => decide (¬ s = 1)) })) :=
  ⟨C2_slot_trampoline_invariant.1 idleEnv c2Task c4Module autoReadyState
      emptyWorld [] false 500
      ⟨fun _ => rfl, fun _ _ => rfl, fun _ _ => rfl, fun _ => rfl,
        fun _ => rfl⟩
      rfl rfl (by decide) (by decide),
   C2_slot_trampoline_invariant.2 honestMem c2State c2World c2Key c2Slot c2Hub
      1 77
      ⟨fun _ => rfl, fun _ _ => rfl, fun _ _ => rfl, fun _ => rfl,
        fun _ => rfl⟩
      (by decide) rfl (by decide) rfl c2HubWF c2Count (by decide)
      (by decide) rfl (by decide)⟩
